import Mathlib

/-!
# go-functional: supervision and functional actors

A shallow embedding of `pkg/functional/supervisor.go`, `pkg/functional/actor.go` and
`pkg/functional/functional.go`.

* The actor substrate (`actor.Context`) is modelled by explicit state passing: a
  `Context` carries the handles the substrate hands out, one per `Spawn`, and the
  chronological trace of the calls made on it.
* Process handles (`*actor.PID`) are compared by identity; they are modelled as
  natural numbers.
* The Go map `map[*actor.PID]ChildSpec` is a finite map with unique keys (`AList`).
* A `Receive` of the functional actor returns the trace of what it did (the call of the
  transform and the lines printed) and whether it panicked; the dynamic type test of its
  type switch on the declared input type is an argument.
-/

namespace Functional

/-! ## Restart strategies and supervised props (`supervisor.go`, lines 10-113) -/

/-- The type `RestartStrategy`, declared `type RestartStrategy int`: every integer is a
value of the type. -/
abbrev RestartStrategy := Int

/-- The constants of lines 13-25, numbered by `iota` from `OneForOne = 0`. -/
def OneForOne : RestartStrategy := 0
def AllForOne : RestartStrategy := 1
def OneForOneResume : RestartStrategy := 2
def AllForOneResume : RestartStrategy := 3
def OneForOneStop : RestartStrategy := 4
def AllForOneStop : RestartStrategy := 5
def OneForOneEscalate : RestartStrategy := 6
def AllForOneEscalate : RestartStrategy := 7

/-- The type `actor.Directive`: the four directives a decider can return. -/
inductive Directive
  | ResumeDirective
  | RestartDirective
  | StopDirective
  | EscalateDirective
  deriving DecidableEq, Repr

/-- The type `time.Duration`, in nanoseconds. -/
abbrev Duration := Int

/-- The constant `time.Second`. -/
def Second : Duration := 1000000000

/-- A decider `func(reason interface{}) actor.Directive` of `supervisor.go`: it prints one
line (a format string applied to the reason) and returns a directive.  The result pairs
the format string of the printed line with the directive. -/
abbrev Decider (R : Type) := R → String × Directive

/-- The value assigned to `supervisorStrategy`: which constructor of the actor library was
called, and with which arguments.  `DefaultSupervisorStrategy` is the library's default,
which the library builds as `NewOneForOneStrategy(10, 10*time.Second, DefaultDecider)`,
`DefaultDecider` returning `RestartDirective` for every reason. -/
inductive SupervisorStrategy (R : Type)
  | NewOneForOneStrategy (maxNrOfRetries : Int) (withinDuration : Duration) (decider : Decider R)
  | NewAllForOneStrategy (maxNrOfRetries : Int) (withinDuration : Duration) (decider : Decider R)
  | DefaultSupervisorStrategy

/-- The struct `FunctionalActor[T, U]`: an actor holding one fixed transform.  A transform
that panics on an input is `Except.error` there. -/
structure FunctionalActor (T U : Type) where
  transform : T → Except String U

/-- The value `*actor.Props` as built by `NewSupervisedFunctionalActor`: the actor the producer
returns, and the strategy passed to `actor.WithSupervisor`. -/
structure Props (T U R : Type) where
  producer : FunctionalActor T U
  supervisor : SupervisorStrategy R

/-- The function `NewSupervisedFunctionalActor(transform, strategy)`: the `switch strategy` of lines
32-107 followed by `actor.PropsFromProducer(..., actor.WithSupervisor(supervisorStrategy))`. -/
def NewSupervisedFunctionalActor {T U R : Type} (transform : T → Except String U)
    (strategy : RestartStrategy) : Props T U R :=
  let supervisorStrategy : SupervisorStrategy R :=
    if strategy = OneForOne then
      .NewOneForOneStrategy 3 (5 * Second)
        (fun _ => ("OneForOne: Restarting due to: %v\n", .RestartDirective))
    else if strategy = AllForOne then
      .NewAllForOneStrategy 3 (5 * Second)
        (fun _ => ("AllForOne: Restarting all children due to: %v\n", .RestartDirective))
    else if strategy = OneForOneResume then
      .NewOneForOneStrategy 3 (5 * Second)
        (fun _ => ("OneForOne: Resuming due to: %v\n", .ResumeDirective))
    else if strategy = AllForOneResume then
      .NewAllForOneStrategy 3 (5 * Second)
        (fun _ => ("AllForOne: Resuming all children due to: %v\n", .ResumeDirective))
    else if strategy = OneForOneStop then
      .NewOneForOneStrategy 3 (5 * Second)
        (fun _ => ("OneForOne: Stopping due to: %v\n", .StopDirective))
    else if strategy = AllForOneStop then
      .NewAllForOneStrategy 3 (5 * Second)
        (fun _ => ("AllForOne: Stopping all children due to: %v\n", .StopDirective))
    else if strategy = OneForOneEscalate then
      .NewOneForOneStrategy 3 (5 * Second)
        (fun _ => ("OneForOne: Escalating due to: %v\n", .EscalateDirective))
    else if strategy = AllForOneEscalate then
      .NewAllForOneStrategy 3 (5 * Second)
        (fun _ => ("AllForOne: Escalating all children due to: %v\n", .EscalateDirective))
    else
      .DefaultSupervisorStrategy
  { producer := { transform := transform }, supervisor := supervisorStrategy }

/-- Whether the strategy is all-for-one, that is built by `actor.NewAllForOneStrategy`; the
library default is one-for-one. -/
def SupervisorStrategy.isAllForOne {R : Type} : SupervisorStrategy R → Bool
  | .NewAllForOneStrategy _ _ _ => true
  | _ => false

/-- The retry count of the strategy: the one passed to the strategy constructor, and 10 for
the library default. -/
def SupervisorStrategy.maxNrOfRetries? {R : Type} : SupervisorStrategy R → Option Int
  | .NewOneForOneStrategy n _ _ => some n
  | .NewAllForOneStrategy n _ _ => some n
  | .DefaultSupervisorStrategy => some 10

/-- The window of the strategy: the one passed to the strategy constructor, and
`10*time.Second` for the library default. -/
def SupervisorStrategy.withinDuration? {R : Type} : SupervisorStrategy R → Option Duration
  | .NewOneForOneStrategy _ d _ => some d
  | .NewAllForOneStrategy _ d _ => some d
  | .DefaultSupervisorStrategy => some (10 * Second)

/-- The directive the decider of the strategy returns for a failure reason: the decider
passed to the strategy constructor, and for the library default `DefaultDecider`, which
returns `RestartDirective` for every reason. -/
def SupervisorStrategy.directiveFor {R : Type} (strategy : SupervisorStrategy R) (reason : R) :
    Option Directive :=
  match strategy with
  | .NewOneForOneStrategy _ _ decider => some (decider reason).2
  | .NewAllForOneStrategy _ _ decider => some (decider reason).2
  | .DefaultSupervisorStrategy => some Directive.RestartDirective

/-! ## The supervisor actor (`supervisor.go`, lines 115-160) -/

/-- A process handle `*actor.PID`. -/
abbrev PID := Nat

/-- The struct `ChildSpec`: a name and the props the child is spawned from. -/
structure ChildSpec (P : Type) where
  Name : String
  Props : P

/-- The Go map `map[*actor.PID]ChildSpec`. -/
abbrev ChildMap (P : Type) := AList (fun _ : PID => ChildSpec P)

/-- The struct `SupervisorActor`: the specs given at construction and the live children. -/
structure SupervisorActor (P : Type) where
  specs : List (ChildSpec P)
  children : ChildMap P

/-- The function `NewSupervisorActor(specs)`: the given specs and an empty children map. -/
def NewSupervisorActor {P : Type} (specs : List (ChildSpec P)) : SupervisorActor P :=
  { specs := specs, children := ∅ }

/-- The message `ctx.Message()` as the type switch of `SupervisorActor.Receive` sees it:
`*actor.Started`, `*actor.Terminated` with its `Who`, or a value of any other type. -/
inductive Message (X : Type)
  | Started
  | Terminated (Who : PID)
  | other (value : X)
  deriving DecidableEq

/-- A call made during `Receive`, on the context or on standard output. -/
inductive Effect (P : Type)
  | Spawn (props : P) (child : PID)
  | Watch (pid : PID)
  | Println (line : String)
  | Printf (format : String) (name : String) (pid : PID)

/-- The substrate as `Receive` uses it: `handles n` is the handle returned by the
substrate's `n`-th `Spawn`, `spawned` counts the spawns so far, and `trace` lists the
calls made so far, oldest first. -/
structure Context (P : Type) where
  handles : Nat → PID
  spawned : Nat
  trace : List (Effect P)

/-- The call `ctx.Spawn(props)`: the substrate returns its next handle. -/
def Context.Spawn {P : Type} (ctx : Context P) (props : P) : PID × Context P :=
  (ctx.handles ctx.spawned,
    { ctx with
      spawned := ctx.spawned + 1
      trace := ctx.trace ++ [Effect.Spawn props (ctx.handles ctx.spawned)] })

/-- The call `ctx.Watch(pid)`. -/
def Context.Watch {P : Type} (ctx : Context P) (pid : PID) : Context P :=
  { ctx with trace := ctx.trace ++ [Effect.Watch pid] }

/-- The call `fmt.Println(line)`. -/
def Context.Println {P : Type} (ctx : Context P) (line : String) : Context P :=
  { ctx with trace := ctx.trace ++ [Effect.Println line] }

/-- The call `fmt.Printf(format, name, pid)`. -/
def Context.Printf {P : Type} (ctx : Context P) (format name : String) (pid : PID) :
    Context P :=
  { ctx with trace := ctx.trace ++ [Effect.Printf format name pid] }

/-- The loop `for _, spec := range s.specs` of the `*actor.Started` case (lines 140-145),
on the specs still to be visited. -/
def spawnChildren {P : Type} :
    List (ChildSpec P) → ChildMap P → Context P → ChildMap P × Context P
  | [], children, ctx => (children, ctx)
  | spec :: rest, children, ctx =>
      let spawnResult := ctx.Spawn spec.Props
      let child := spawnResult.1
      let children1 := children.insert child spec
      let ctx1 := spawnResult.2.Watch child
      let ctx2 := ctx1.Printf "Spawned child '%s': %v\n" spec.Name child
      spawnChildren rest children1 ctx2

/-- The method `SupervisorActor.Receive` (lines 136-160): the actor and the context after
the message has been handled. -/
def SupervisorActor.Receive {P X : Type} (s : SupervisorActor P) (ctx : Context P) :
    Message X → SupervisorActor P × Context P
  | .Started =>
      let ctx0 := ctx.Println "Supervisor started, spawning children..."
      let loopResult := spawnChildren s.specs s.children ctx0
      ({ s with children := loopResult.1 }, loopResult.2)
  | .Terminated terminatedPID =>
      match s.children.lookup terminatedPID with
      | some spec =>
          let ctx0 := ctx.Printf "Child '%s' terminated: %v. Restarting...\n" spec.Name
            terminatedPID
          let spawnResult := ctx0.Spawn spec.Props
          let newChild := spawnResult.1
          let children1 := (s.children.erase terminatedPID).insert newChild spec
          let ctx1 := spawnResult.2.Watch newChild
          let ctx2 := ctx1.Printf "Restarted child '%s': %v\n" spec.Name newChild
          ({ s with children := children1 }, ctx2)
      | none => (s, ctx)
  | .other _ => (s, ctx)

/-- The props of the spawns requested in a trace, oldest first. -/
def spawnRequests {P : Type} : List (Effect P) → List P
  | [] => []
  | Effect.Spawn props _ :: rest => props :: spawnRequests rest
  | _ :: rest => spawnRequests rest

/-- The handles of the watches requested in a trace, oldest first. -/
def watchRequests {P : Type} : List (Effect P) → List PID
  | [] => []
  | Effect.Watch pid :: rest => pid :: watchRequests rest
  | _ :: rest => watchRequests rest

/-- The number of entries of the children map, Go's `len(s.children)`. -/
def childCount {P : Type} (children : ChildMap P) : Nat := children.keys.length

/-- The method `SupervisorActor.Receive` on each message of a list in turn, the way the
mailbox delivers them: one at a time, each on the state the previous one left. -/
def SupervisorActor.ReceiveAll {P X : Type} (s : SupervisorActor P) (ctx : Context P) :
    List (Message X) → SupervisorActor P × Context P
  | [] => (s, ctx)
  | msg :: rest =>
      SupervisorActor.ReceiveAll (s.Receive ctx msg).1 (s.Receive ctx msg).2 rest

/-- The specs the children map maps to, one per entry. -/
def childSpecs {P : Type} (children : ChildMap P) : List (ChildSpec P) :=
  children.entries.map (fun entry => entry.2)

/-- The substrate returns handles that are not current keys, all along the handling of a
list of messages: whenever the next message is the termination of a registered child, so
that `Receive` spawns, the handle the substrate returns is not a key at that moment. -/
def freshAlong {P X : Type} (s : SupervisorActor P) (ctx : Context P) :
    List (Message X) → Prop
  | [] => True
  | msg :: rest =>
      (∀ h, msg = Message.Terminated h → h ∈ s.children →
          ctx.handles ctx.spawned ∉ s.children)
        ∧ freshAlong (s.Receive ctx msg).1 (s.Receive ctx msg).2 rest

/-! ## The functional actor (`actor.go`) -/

/-- What `FunctionalActor.Receive` does, in order: the call of the transform and the lines
it prints (format string and arguments). -/
inductive ActorEffect (X T U : Type)
  | Transform (input : T)
  | Println (line : String)
  | PrintfReceived (format : String) (msg : T) (result : U)
  | PrintfUnhandled (format : String) (msg : Message X)

/-- How a call of `FunctionalActor.Receive` ends: what it did, and the value it panicked
with when the transform panicked (`none` when `Receive` returned normally). -/
structure ReceiveOutcome (X T U : Type) where
  trace : List (ActorEffect X T U)
  panic : Option String

/-- The method `FunctionalActor.Receive` (`actor.go`, lines 13-25).  The type switch tests
`*actor.Started` first and the declared input type `T` second; `asInput msg` is the
dynamic type test of `case T`, giving the message as a `T` when its type matches. -/
def FunctionalActor.Receive {X T U : Type} (fa : FunctionalActor T U)
    (asInput : Message X → Option T) (msg : Message X) : ReceiveOutcome X T U :=
  match msg with
  | .Started =>
      { trace := [ActorEffect.Println "FunctionalActor - Started successfully"], panic := none }
  | _ =>
      match asInput msg with
      | some input =>
          match fa.transform input with
          | .ok result =>
              { trace := [ActorEffect.Transform input,
                  ActorEffect.PrintfReceived
                    "FunctionalActor - Received: %v, Transformed: %v\n" input result],
                panic := none }
          | .error reason => { trace := [ActorEffect.Transform input], panic := some reason }
      | none =>
          { trace := [ActorEffect.PrintfUnhandled
              "FunctionalActor - Unhandled message type: %T\n" msg],
            panic := none }

/-- The inputs the transform was called with in a trace, oldest first. -/
def transformCalls {X T U : Type} : List (ActorEffect X T U) → List T
  | [] => []
  | ActorEffect.Transform input :: rest => input :: transformCalls rest
  | _ :: rest => transformCalls rest

/-- Go values other than the two system messages, for the examples. -/
inductive GoValue
  | int (n : Int)
  | string (s : String)
  deriving DecidableEq

/-- The type test `msg.(int)`. -/
def asInt : Message GoValue → Option Int
  | .other (.int n) => some n
  | _ => none

/-- The type test `msg.(any)`: every message is a value of the empty interface. -/
def asAny : Message GoValue → Option (Message GoValue) := fun msg => some msg

/-- A `FunctionalActor[any, string]`. -/
def anyActor : FunctionalActor (Message GoValue) String :=
  { transform := fun _ => .ok "seen" }

/-- Scenario A: a supervisor of one child is started and the child fails four times in a
row, each failure reaching the supervisor as the termination of the current handle. -/
def scenarioA {P : Type} (X : Type) (spec : ChildSpec P) (ctx : Context P) :
    SupervisorActor P × Context P :=
  SupervisorActor.ReceiveAll (NewSupervisorActor [spec]) ctx
    ([Message.Started,
      Message.Terminated (ctx.handles ctx.spawned),
      Message.Terminated (ctx.handles (ctx.spawned + 1)),
      Message.Terminated (ctx.handles (ctx.spawned + 2)),
      Message.Terminated (ctx.handles (ctx.spawned + 3))] : List (Message X))

/-! ## Higher-order functions and containers (`functional.go`)

Function arguments are pure functions.  `Map` reads one slice and writes another, of
another element type: each is kept as the list of its elements, and `Map` returns both.
The slices of `ImmutableList` share one element type and one memory, which is modelled:
backing arrays, slices pointing into them, `make`, `copy` and index assignment. -/

/-- The call `make([]T, n)`: `n` zero values. -/
def goMake {T : Type} [Inhabited T] (n : Nat) : List T := List.replicate n default

/-- The slices `Map` works on: its argument `list` and its local `result`. -/
structure MapStore (T U : Type) where
  list : List T
  result : List U

/-- The loop `for i, v := range list { result[i] = fn(v) }` of `Map` (lines 9-11), on the
elements still to be visited, `i` being the index of the first of them. -/
def mapRange {T U : Type} (fn : T → U) : List T → Nat → MapStore T U → MapStore T U
  | [], _, store => store
  | v :: rest, i, store =>
      mapRange fn rest (i + 1) { store with result := store.result.set i (fn v) }

/-- The function `Map` (lines 7-13): the argument slice and the returned slice when it
returns. -/
def Map {T U : Type} [Inhabited U] (fn : T → U) (list : List T) : MapStore T U :=
  mapRange fn list 0 { list := list, result := goMake list.length }

/-- The function `Reduce` (lines 15-21): the loop carries `acc`, which starts at `init`. -/
def Reduce {T U : Type} (fn : U → T → U) (init : U) : List T → U
  | [] => init
  | v :: rest => Reduce fn (fn init v) rest

/-- The function `Curry` (lines 27-33). -/
def Curry {A B C : Type} (fn : A → B → C) : A → B → C :=
  fun a => fun b => fn a b

/-- The function `Compose` (lines 39-43). -/
def Compose {A B C : Type} (f : B → C) (g : A → B) : A → C :=
  fun a => f (g a)

/-- The struct `Maybe[T]`: a pointer to a value, or nil (`none`).  Two values of the type
are equal when both are nil or both point to equal values. -/
structure Maybe (T : Type) where
  value : Option T

/-- The function `Some` (lines 53-55). -/
def Some {T : Type} (v : T) : Maybe T := { value := some v }

/-- The function `None` (lines 57-59). -/
def None {T : Type} : Maybe T := { value := none }

/-- The method `Maybe.Map` (lines 61-67). -/
def Maybe.Map {T : Type} (m : Maybe T) (fn : T → T) : Maybe T :=
  match m.value with
  | none => None
  | some v => Some (fn v)

/-- The method `Maybe.Bind` (lines 69-74). -/
def Maybe.Bind {T : Type} (m : Maybe T) (fn : T → Maybe T) : Maybe T :=
  match m.value with
  | none => None
  | some v => fn v

/-- The method `Maybe.GetOrElse` (lines 76-81). -/
def Maybe.GetOrElse {T : Type} (m : Maybe T) (defaultValue : T) : T :=
  match m.value with
  | none => defaultValue
  | some v => v

/-- The memory that holds the elements of slices of element type `T`: the backing arrays
allocated so far, each addressed by its position. -/
structure Heap (T : Type) where
  arrays : List (List T)

/-- A slice value `[]T`: its backing array, where it starts in it, and its length. -/
structure Slice where
  array : Nat
  offset : Nat
  len : Nat
  deriving DecidableEq

/-- The elements of a slice. -/
def Heap.read {T : Type} (heap : Heap T) (s : Slice) : List T :=
  (((heap.arrays[s.array]?).getD []).drop s.offset).take s.len

/-- A slice of the heap: its backing array is allocated and holds the whole slice. -/
def Heap.valid {T : Type} (heap : Heap T) (s : Slice) : Prop :=
  s.array < heap.arrays.length
    ∧ s.offset + s.len ≤ ((heap.arrays[s.array]?).getD []).length

/-- The call `make([]T, n)`: a new backing array of `n` zero values and the slice of it. -/
def Heap.make {T : Type} [Inhabited T] (heap : Heap T) (n : Nat) : Slice × Heap T :=
  ({ array := heap.arrays.length, offset := 0, len := n },
    { arrays := heap.arrays ++ [List.replicate n default] })

/-- An array with `data` written from position `off` on. -/
def writeAt {T : Type} (arr : List T) (off : Nat) (data : List T) : List T :=
  arr.take off ++ data ++ arr.drop (off + data.length)

/-- The call `copy(dst, src)`: the first `min(len(dst), len(src))` elements of `src` are
written to the start of `dst`. -/
def Heap.copy {T : Type} (heap : Heap T) (dst src : Slice) : Heap T :=
  { arrays := heap.arrays.set dst.array
      (writeAt ((heap.arrays[dst.array]?).getD []) dst.offset
        ((heap.read src).take (min dst.len src.len))) }

/-- The assignment `s[i] = v`, for an index `i` within the slice. -/
def Heap.store {T : Type} (heap : Heap T) (s : Slice) (i : Nat) (v : T) : Heap T :=
  { arrays := heap.arrays.set s.array
      (((heap.arrays[s.array]?).getD []).set (s.offset + i) v) }

/-- The struct `ImmutableList[T]`. -/
structure ImmutableList where
  items : Slice

/-- The function `NewImmutableList` (lines 91-95): the list and the memory when it
returns. -/
def NewImmutableList {T : Type} [Inhabited T] (heap : Heap T) (items : Slice) :
    ImmutableList × Heap T :=
  let made := heap.make items.len
  let newItems := made.1
  let heap1 := made.2.copy newItems items
  ({ items := newItems }, heap1)

/-- The method `ImmutableList.Append` (lines 97-102): the returned list and the memory
when it returns. -/
def ImmutableList.Append {T : Type} [Inhabited T] (l : ImmutableList) (heap : Heap T)
    (item : T) : ImmutableList × Heap T :=
  let made := heap.make (l.items.len + 1)
  let newList := made.1
  let heap1 := made.2.copy newList l.items
  let heap2 := heap1.store newList (newList.len - 1) item
  ({ items := newList }, heap2)

/-- The method `ImmutableList.GetItems` (lines 104-108): the returned slice and the memory
when it returns. -/
def ImmutableList.GetItems {T : Type} [Inhabited T] (l : ImmutableList) (heap : Heap T) :
    Slice × Heap T :=
  let made := heap.make l.items.len
  let newItems := made.1
  let heap1 := made.2.copy newItems l.items
  (newItems, heap1)

/-- The elements of a returned slice, read in the memory returned with it. -/
def readResult {T : Type} (r : Slice × Heap T) : List T := r.2.read r.1

/-- Go's `int` on a 64-bit platform: the representative of an integer in
`[-2^63, 2^63)` modulo `2^64`. -/
def wrapInt64 (z : Int) : Int := (z + 2 ^ 63) % 2 ^ 64 - 2 ^ 63

/-- Go's `+` on `int`. -/
def intAdd (a b : Int) : Int := wrapInt64 (a + b)

/-- Go's `*` on `int`. -/
def intMul (a b : Int) : Int := wrapInt64 (a * b)

/-- The input of `benchmarkMap` and `benchmarkReduce` (`main.go`, lines 14-17 and 28-31)
for length `n`: `input[i] = i`. -/
def rangeInput (n : Nat) : List Int := (List.range n).map (fun i => (i : Int))

/-! ## Inputs of `cmd/main.go`, used as concrete examples -/

/-- The transform of `benchmarkActorSystem` (`main.go`, line 94). -/
def mainTransform : Int → Except String Int := fun x => .ok (intMul (intAdd x 1) 2)

/-- The child spec of `benchmarkActorSystem` (`main.go`, lines 95-99). -/
def mainChildSpec : ChildSpec (Props Int Int String) :=
  { Name := "Transformer", Props := NewSupervisedFunctionalActor mainTransform OneForOneResume }

/-- A substrate that hands out the handles 0, 1, 2, ... and has not been called yet. -/
def countingContext (P : Type) : Context P :=
  { handles := fun n => n, spawned := 0, trace := [] }

/-- A supervisor with one live child, handle 0, spawned from `mainChildSpec`. -/
def oneChildActor : SupervisorActor (Props Int Int String) :=
  { specs := [mainChildSpec], children := AList.singleton 0 mainChildSpec }

/-- The child of `oneChildActor` terminates; the substrate's next handle is 1. -/
def oneChildTerminated : SupervisorActor (Props Int Int String) × Context (Props Int Int String) :=
  oneChildActor.Receive { handles := fun n => n, spawned := 1, trace := [] }
    (Message.Terminated 0 : Message Int)

/-- A termination notification for handle 7, which `oneChildActor` does not hold. -/
def staleTerminated : SupervisorActor (Props Int Int String) × Context (Props Int Int String) :=
  oneChildActor.Receive { handles := fun n => n, spawned := 1, trace := [] }
    (Message.Terminated 7 : Message Int)

/-- The supervisor of `benchmarkActorSystem` (`main.go`, line 100), which lists the same
child spec twice, after its `Started` message on a substrate that has not spawned yet. -/
def mainStarted : SupervisorActor (Props Int Int String) × Context (Props Int Int String) :=
  (NewSupervisorActor [mainChildSpec, mainChildSpec]).Receive (countingContext _)
    (Message.Started : Message Int)

/-- A supervisor of one child after a first `Started` message. -/
def startedOnce : SupervisorActor (Props Int Int String) × Context (Props Int Int String) :=
  (NewSupervisorActor [mainChildSpec]).Receive (countingContext _)
    (Message.Started : Message Int)

/-- The same supervisor after a second `Started` message. -/
def startedTwice : SupervisorActor (Props Int Int String) × Context (Props Int Int String) :=
  startedOnce.1.Receive startedOnce.2 (Message.Started : Message Int)

/-- A child spec built with the `AllForOne` strategy. -/
def allForOneSpec (name : String) : ChildSpec (Props Int Int String) :=
  { Name := name, Props := NewSupervisedFunctionalActor mainTransform AllForOne }

/-- Scenario B before the failure: two `AllForOne` children, handles 0 and 1. -/
def scenarioBStarted : SupervisorActor (Props Int Int String) × Context (Props Int Int String) :=
  (NewSupervisorActor [allForOneSpec "child1", allForOneSpec "child2"]).Receive
    (countingContext _) (Message.Started : Message Int)

/-- Scenario B: child 1, handle 0, terminates. -/
def scenarioB : SupervisorActor (Props Int Int String) × Context (Props Int Int String) :=
  scenarioBStarted.1.Receive scenarioBStarted.2 (Message.Terminated 0 : Message Int)

/-- A child spec built with the `OneForOneStop` strategy. -/
def stopSpec : ChildSpec (Props Int Int String) :=
  { Name := "Stopper", Props := NewSupervisedFunctionalActor mainTransform OneForOneStop }

/-- A supervisor with one live child, handle 0, spawned from `stopSpec`. -/
def stopActor : SupervisorActor (Props Int Int String) :=
  { specs := [stopSpec], children := AList.singleton 0 stopSpec }

/-- The child of `stopActor` terminates; the substrate's next handle is 1. -/
def stopTerminated : SupervisorActor (Props Int Int String) × Context (Props Int Int String) :=
  stopActor.Receive { handles := fun n => n, spawned := 1, trace := [] }
    (Message.Terminated 0 : Message Int)

/-- An unhandled message for a `FunctionalActor[int, int]`: a string. -/
def stringMessage : Message GoValue := Message.other (GoValue.string "hello")

/-- The message `10` that `cmd/main.go` sends (line 104). -/
def intMessage : Message GoValue := Message.other (GoValue.int 10)

/-- The `FunctionalActor[int, int]` of `cmd/main.go`. -/
def mainActor : FunctionalActor Int Int := { transform := mainTransform }

/-- A child spec built with the `OneForOne` strategy. -/
def oneForOneSpec : ChildSpec (Props Int Int String) :=
  { Name := "Transformer", Props := NewSupervisedFunctionalActor mainTransform OneForOne }

/-- Scenario A on `oneForOneSpec`, the substrate handing out the handles 0, 1, 2, ... -/
def scenarioAOneForOne : SupervisorActor (Props Int Int String) × Context (Props Int Int String) :=
  scenarioA Int oneForOneSpec (countingContext _)

/-- Messages reaching the started supervisor of `cmd/main.go`: its first child (handle 0)
terminates, the integer 10 arrives (`main.go`, line 104), a notification for an unknown
handle arrives, and its second child (handle 1) terminates. -/
def mainRunMessages : List (Message Int) :=
  [Message.Terminated 0, Message.other 10, Message.Terminated 5, Message.Terminated 1]

/-- The supervisor of `cmd/main.go` after `Started` and then `mainRunMessages`. -/
def mainRun : SupervisorActor (Props Int Int String) × Context (Props Int Int String) :=
  mainStarted.1.ReceiveAll mainStarted.2 mainRunMessages

/-- A memory holding the slice `[]int{1, 2, 3, 4, 5}` of `cmd/main.go` (line 69). -/
def exampleHeap : Heap Int := { arrays := [[1, 2, 3, 4, 5]] }

/-- The slice `[]int{1, 2, 3, 4, 5}` in `exampleHeap`. -/
def exampleSlice : Slice := { array := 0, offset := 0, len := 5 }

/-! ## Lemmas on traces and on the children map -/

theorem spawnRequests_append {P : Type} (t u : List (Effect P)) :
    spawnRequests (t ++ u) = spawnRequests t ++ spawnRequests u := by
  induction t with
  | nil => rfl
  | cons e t ih => cases e <;> simp [spawnRequests, ih]

theorem watchRequests_append {P : Type} (t u : List (Effect P)) :
    watchRequests (t ++ u) = watchRequests t ++ watchRequests u := by
  induction t with
  | nil => rfl
  | cons e t ih => cases e <;> simp [watchRequests, ih]

theorem childCount_insert_of_not_mem {P : Type} (m : ChildMap P) (k : PID) (v : ChildSpec P)
    (h : k ∉ m) : childCount (m.insert k v) = childCount m + 1 := by
  have hk : k ∉ m.keys := fun hmem => h (AList.mem_keys.mpr hmem)
  simp [childCount, AList.keys_insert, List.erase_of_not_mem hk]

theorem childCount_erase_of_mem {P : Type} (m : ChildMap P) (k : PID) (h : k ∈ m) :
    childCount (m.erase k) + 1 = childCount m := by
  have hk : k ∈ m.keys := AList.mem_keys.mp h
  have hpos : 0 < m.keys.length := List.length_pos_of_mem hk
  simp only [childCount, AList.keys_erase, List.length_erase_of_mem hk]
  omega

theorem mem_of_lookup_eq_some {P : Type} {m : ChildMap P} {k : PID} {v : ChildSpec P}
    (h : m.lookup k = some v) : k ∈ m := by
  rw [← AList.lookup_isSome, h]; rfl

/-- The result of `Receive` on `Terminated h` when `h` is a key of the children map. -/
theorem Receive_Terminated_of_lookup {P X : Type} (s : SupervisorActor P) (ctx : Context P)
    (h : PID) (spec : ChildSpec P) (hkey : s.children.lookup h = some spec) :
    s.Receive ctx (Message.Terminated h : Message X) =
      ({ s with children := (s.children.erase h).insert (ctx.handles ctx.spawned) spec },
        { ctx with
          spawned := ctx.spawned + 1
          trace := ctx.trace ++
            [Effect.Printf "Child '%s' terminated: %v. Restarting...\n" spec.Name h,
              Effect.Spawn spec.Props (ctx.handles ctx.spawned),
              Effect.Watch (ctx.handles ctx.spawned),
              Effect.Printf "Restarted child '%s': %v\n" spec.Name
                (ctx.handles ctx.spawned)] }) := by
  simp [SupervisorActor.Receive, hkey, Context.Spawn, Context.Watch, Context.Printf]

/-- The result of `Receive` on `Terminated h` when `h` is not a key of the children map. -/
theorem Receive_Terminated_of_not_mem {P X : Type} (s : SupervisorActor P) (ctx : Context P)
    (h : PID) (hkey : h ∉ s.children) :
    s.Receive ctx (Message.Terminated h : Message X) = (s, ctx) := by
  have hnone : s.children.lookup h = none := AList.lookup_eq_none.mpr hkey
  simp [SupervisorActor.Receive, hnone]

/-- The loop of the `Started` case, when the handles it receives are pairwise distinct and
none is a key yet: it adds one entry per spec, maps the `i`-th handle to the `i`-th spec,
leaves the other keys alone, and requests one spawn and one watch per spec, in order. -/
theorem spawnChildren_spec {P : Type} (specs : List (ChildSpec P)) :
    ∀ (m : ChildMap P) (ctx : Context P),
      (∀ i j, i < specs.length → j < specs.length →
        ctx.handles (ctx.spawned + i) = ctx.handles (ctx.spawned + j) → i = j) →
      (∀ i, i < specs.length → ctx.handles (ctx.spawned + i) ∉ m) →
      childCount (spawnChildren specs m ctx).1 = childCount m + specs.length
        ∧ (∀ i, i < specs.length →
            (spawnChildren specs m ctx).1.lookup (ctx.handles (ctx.spawned + i)) = specs[i]?)
        ∧ (∀ k, (∀ i, i < specs.length → k ≠ ctx.handles (ctx.spawned + i)) →
            (spawnChildren specs m ctx).1.lookup k = m.lookup k)
        ∧ spawnRequests (spawnChildren specs m ctx).2.trace
            = spawnRequests ctx.trace ++ specs.map (fun spec => spec.Props)
        ∧ watchRequests (spawnChildren specs m ctx).2.trace
            = watchRequests ctx.trace
              ++ (List.range specs.length).map (fun i => ctx.handles (ctx.spawned + i))
        ∧ (spawnChildren specs m ctx).2.spawned = ctx.spawned + specs.length
        ∧ (spawnChildren specs m ctx).2.handles = ctx.handles := by
  induction specs with
  | nil =>
      intro m ctx _ _
      simp [spawnChildren]
  | cons spec rest ih =>
      intro m ctx hdist hnew
      have h0 : ctx.handles ctx.spawned ∉ m := by simpa using hnew 0 (by simp)
      have hdist1 : ∀ i j, i < rest.length → j < rest.length →
          ctx.handles (ctx.spawned + 1 + i) = ctx.handles (ctx.spawned + 1 + j) → i = j := by
        intro i j hi hj heq
        have := hdist (i + 1) (j + 1) (by simpa using hi) (by simpa using hj)
          (by simpa [Nat.add_assoc, Nat.add_comm 1] using heq)
        omega
      have hne : ∀ i, i < rest.length →
          ctx.handles (ctx.spawned + 1 + i) ≠ ctx.handles ctx.spawned := by
        intro i hi heq
        have := hdist (i + 1) 0 (by simpa using hi) (by simp)
          (by simpa [Nat.add_assoc, Nat.add_comm 1] using heq)
        omega
      have hnew1 : ∀ i, i < rest.length →
          ctx.handles (ctx.spawned + 1 + i) ∉ m.insert (ctx.handles ctx.spawned) spec := by
        intro i hi hmem
        rcases (AList.mem_insert m).mp hmem with heq | hin
        · exact hne i hi heq
        · exact hnew (i + 1) (by simpa using hi)
            (by simpa [Nat.add_assoc, Nat.add_comm 1] using hin)
      obtain ⟨ihc, ihl, iho, ihs, ihw, ihn, ihh⟩ :=
        ih (m.insert (ctx.handles ctx.spawned) spec)
          { handles := ctx.handles
            spawned := ctx.spawned + 1
            trace := ctx.trace ++ [Effect.Spawn spec.Props (ctx.handles ctx.spawned)]
              ++ [Effect.Watch (ctx.handles ctx.spawned)]
              ++ [Effect.Printf "Spawned child '%s': %v\n" spec.Name
                    (ctx.handles ctx.spawned)] }
          hdist1 hnew1
      simp only [spawnChildren, Context.Spawn, Context.Watch, Context.Printf]
      simp only at ihc ihl iho ihs ihw ihn ihh
      refine ⟨?_, ?_, ?_, ?_, ?_, ?_, ?_⟩
      · rw [ihc, childCount_insert_of_not_mem m _ spec h0]
        simp only [List.length_cons]
        omega
      · intro i hi
        cases i with
        | zero =>
            have := iho (ctx.handles ctx.spawned) (fun j hj => (hne j hj).symm)
            simpa [AList.lookup_insert] using this
        | succ i =>
            have hi1 : i < rest.length := by simpa using hi
            have e : ctx.spawned + (i + 1) = ctx.spawned + 1 + i := by omega
            rw [e]
            simpa using ihl i hi1
      · intro k hk
        have hk0 : k ≠ ctx.handles ctx.spawned := by simpa using hk 0 (by simp)
        have hk1 : ∀ i, i < rest.length → k ≠ ctx.handles (ctx.spawned + 1 + i) := by
          intro i hi
          simpa [Nat.add_assoc, Nat.add_comm 1] using hk (i + 1) (by simpa using hi)
        rw [iho k hk1, AList.lookup_insert_ne hk0]
      · rw [ihs]
        simp [spawnRequests_append, spawnRequests]
      · rw [ihw]
        simp [watchRequests_append, watchRequests, List.range_succ_eq_map, Function.comp_def,
          Nat.add_assoc, Nat.add_comm 1]
      · rw [ihn]
        simp only [List.length_cons]
        omega
      · exact ihh

/-- The `Started` case of `Receive`: one line is printed, then the loop runs. -/
theorem Receive_Started {P X : Type} (s : SupervisorActor P) (ctx : Context P) :
    s.Receive ctx (Message.Started : Message X) =
      ({ s with
          children := (spawnChildren s.specs s.children
            (ctx.Println "Supervisor started, spawning children...")).1 },
        (spawnChildren s.specs s.children
          (ctx.Println "Supervisor started, spawning children...")).2) := rfl

/-- One `Started` message handled by any supervisor state, when the handles the substrate
returns are pairwise distinct and none is a key yet. -/
theorem Receive_Started_spec {P X : Type} (s s' : SupervisorActor P) (ctx ctx' : Context P)
    (hstep : s.Receive ctx (Message.Started : Message X) = (s', ctx'))
    (hdistinct : ∀ i j, i < s.specs.length → j < s.specs.length →
      ctx.handles (ctx.spawned + i) = ctx.handles (ctx.spawned + j) → i = j)
    (hnew : ∀ i, i < s.specs.length → ctx.handles (ctx.spawned + i) ∉ s.children) :
    s'.specs = s.specs
      ∧ childCount s'.children = childCount s.children + s.specs.length
      ∧ (∀ i, i < s.specs.length →
          s'.children.lookup (ctx.handles (ctx.spawned + i)) = s.specs[i]?)
      ∧ (∀ k, (∀ i, i < s.specs.length → k ≠ ctx.handles (ctx.spawned + i)) →
          s'.children.lookup k = s.children.lookup k)
      ∧ spawnRequests ctx'.trace
          = spawnRequests ctx.trace ++ s.specs.map (fun spec => spec.Props)
      ∧ watchRequests ctx'.trace
          = watchRequests ctx.trace
            ++ (List.range s.specs.length).map (fun i => ctx.handles (ctx.spawned + i))
      ∧ ctx'.spawned = ctx.spawned + s.specs.length
      ∧ ctx'.handles = ctx.handles := by
  rw [Receive_Started] at hstep
  obtain ⟨rfl, rfl⟩ := Prod.mk.inj hstep
  obtain ⟨hc, hl, ho, hs, hw, hn, hh⟩ :=
    spawnChildren_spec s.specs s.children
      (ctx.Println "Supervisor started, spawning children...") hdistinct hnew
  refine ⟨rfl, hc, hl, ho, ?_, ?_, hn, hh⟩
  · simpa [Context.Println, spawnRequests_append, spawnRequests] using hs
  · simpa [Context.Println, watchRequests_append, watchRequests] using hw

/-- Erasing the only key of a one-entry map and inserting a key gives a one-entry map. -/
theorem insert_erase_singleton {P : Type} (h k : PID) (spec : ChildSpec P) :
    ((AList.singleton h spec : ChildMap P).erase h).insert k spec = AList.singleton k spec := by
  apply AList.ext
  simp [AList.insert_entries, AList.erase, AList.singleton, List.kerase]

/-- A supervisor whose only child terminates holds, afterwards, exactly the replacement. -/
theorem Receive_Terminated_singleton {P X : Type} (s : SupervisorActor P) (ctx : Context P)
    (h : PID) (spec : ChildSpec P) (hs : s.children = AList.singleton h spec) :
    ((s.Receive ctx (Message.Terminated h : Message X)).1.children
          = AList.singleton (ctx.handles ctx.spawned) spec
        ∧ (s.Receive ctx (Message.Terminated h : Message X)).1.specs = s.specs)
      ∧ (s.Receive ctx (Message.Terminated h : Message X)).2.handles = ctx.handles
      ∧ (s.Receive ctx (Message.Terminated h : Message X)).2.spawned = ctx.spawned + 1
      ∧ spawnRequests (s.Receive ctx (Message.Terminated h : Message X)).2.trace
          = spawnRequests ctx.trace ++ [spec.Props] := by
  have hkey : s.children.lookup h = some spec := by
    rw [hs]
    simp [AList.singleton, AList.lookup]
  rw [Receive_Terminated_of_lookup s ctx h spec hkey]
  refine ⟨⟨?_, rfl⟩, rfl, rfl, ?_⟩
  · simp only [hs]
    exact insert_erase_singleton h _ spec
  · simp [spawnRequests_append, spawnRequests]

/-- A supervisor of one spec, started from the empty map, holds exactly that child. -/
theorem Receive_Started_single {P X : Type} (spec : ChildSpec P) (ctx : Context P) :
    ((NewSupervisorActor [spec]).Receive ctx (Message.Started : Message X)).1.children
        = AList.singleton (ctx.handles ctx.spawned) spec
      ∧ ((NewSupervisorActor [spec]).Receive ctx (Message.Started : Message X)).2.handles
        = ctx.handles
      ∧ ((NewSupervisorActor [spec]).Receive ctx (Message.Started : Message X)).2.spawned
        = ctx.spawned + 1
      ∧ spawnRequests
          ((NewSupervisorActor [spec]).Receive ctx (Message.Started : Message X)).2.trace
        = spawnRequests ctx.trace ++ [spec.Props] := by
  rw [Receive_Started]
  refine ⟨?_, rfl, rfl, ?_⟩
  · simp [NewSupervisorActor, spawnChildren, Context.Spawn, Context.Println,
      AList.insert_empty]
  · simp [NewSupervisorActor, spawnChildren, Context.Spawn, Context.Println, Context.Watch,
      Context.Printf, spawnRequests_append, spawnRequests]

/-- One more failure of the only child: if the supervisor holds exactly the child with the
`n`-th handle, then after that handle terminates it holds exactly the child with the next
handle, and one more spawn from the same props has been requested. -/
theorem single_child_step {P X : Type} (r : SupervisorActor P × Context P) (ctx : Context P)
    (n : Nat) (spec : ChildSpec P) (base : List P)
    (h : r.1.children = AList.singleton (ctx.handles (ctx.spawned + n)) spec
      ∧ r.2.handles = ctx.handles
      ∧ r.2.spawned = ctx.spawned + (n + 1)
      ∧ spawnRequests r.2.trace = base ++ List.replicate (n + 1) spec.Props) :
    (r.1.Receive r.2 (Message.Terminated (ctx.handles (ctx.spawned + n)) : Message X)).1.children
        = AList.singleton (ctx.handles (ctx.spawned + (n + 1))) spec
      ∧ (r.1.Receive r.2
          (Message.Terminated (ctx.handles (ctx.spawned + n)) : Message X)).2.handles
        = ctx.handles
      ∧ (r.1.Receive r.2
          (Message.Terminated (ctx.handles (ctx.spawned + n)) : Message X)).2.spawned
        = ctx.spawned + (n + 1 + 1)
      ∧ spawnRequests (r.1.Receive r.2
          (Message.Terminated (ctx.handles (ctx.spawned + n)) : Message X)).2.trace
        = base ++ List.replicate (n + 1 + 1) spec.Props := by
  obtain ⟨hc, hh, hn, ht⟩ := h
  obtain ⟨⟨hc1, _⟩, hh1, hn1, ht1⟩ :=
    Receive_Terminated_singleton (X := X) r.1 r.2 (ctx.handles (ctx.spawned + n)) spec hc
  refine ⟨?_, ?_, ?_, ?_⟩
  · rw [hc1, hh, hn]
  · rw [hh1, hh]
  · rw [hn1, hn]
    rfl
  · rw [ht1, ht, List.append_assoc]
    congr 1
    exact (List.replicate_succ' (n + 1) spec.Props).symm

/-- Scenario A on any child spec: each of the four terminations is answered by a respawn
from the same props, and the supervisor ends with exactly the last replacement. -/
theorem scenarioA_respawns {P : Type} (X : Type) (spec : ChildSpec P) (ctx : Context P) :
    (scenarioA X spec ctx).1.children = AList.singleton (ctx.handles (ctx.spawned + 4)) spec
      ∧ spawnRequests (scenarioA X spec ctx).2.trace
        = spawnRequests ctx.trace ++ List.replicate 5 spec.Props := by
  obtain ⟨hc0, hh0, hn0, ht0⟩ := Receive_Started_single (X := X) spec ctx
  have h4 := single_child_step (X := X) _ ctx 3 spec (spawnRequests ctx.trace)
    (single_child_step (X := X) _ ctx 2 spec (spawnRequests ctx.trace)
      (single_child_step (X := X) _ ctx 1 spec (spawnRequests ctx.trace)
        (single_child_step (X := X) _ ctx 0 spec (spawnRequests ctx.trace)
          ⟨hc0, hh0, hn0, ht0⟩)))
  exact ⟨h4.1, h4.2.2.2⟩

/-! ## Claims -/

/-- C1: `Receive` on `Terminated h`, with `h` a key of the children map mapped to `spec`
and the substrate returning a handle that is not a key: exactly one spawn is requested in
the step, from `spec.Props`; afterwards `h` is no longer a key, the new handle is a key
mapped to `spec`, the new handle is watched, and the number of entries is unchanged. -/
theorem Receive_Terminated_replaces {P X : Type} (s s' : SupervisorActor P)
    (ctx ctx' : Context P) (h : PID) (spec : ChildSpec P)
    (hstep : s.Receive ctx (Message.Terminated h : Message X) = (s', ctx'))
    (hkey : s.children.lookup h = some spec)
    (hfresh : ctx.handles ctx.spawned ∉ s.children) :
    spawnRequests ctx'.trace = spawnRequests ctx.trace ++ [spec.Props]
      ∧ h ∉ s'.children
      ∧ s'.children.lookup (ctx.handles ctx.spawned) = some spec
      ∧ watchRequests ctx'.trace = watchRequests ctx.trace ++ [ctx.handles ctx.spawned]
      ∧ childCount s'.children = childCount s.children := by
  have hmem : h ∈ s.children := mem_of_lookup_eq_some hkey
  have hne : h ≠ ctx.handles ctx.spawned := fun heq => hfresh (heq ▸ hmem)
  rw [Receive_Terminated_of_lookup s ctx h spec hkey] at hstep
  obtain ⟨rfl, rfl⟩ := Prod.mk.inj hstep
  refine ⟨?_, ?_, ?_, ?_, ?_⟩
  · simp [spawnRequests_append, spawnRequests]
  · simp [AList.mem_insert, AList.mem_erase, hne]
  · simp [AList.lookup_insert]
  · simp [watchRequests_append, watchRequests]
  · have hfresh2 : ctx.handles ctx.spawned ∉ s.children.erase h := by
      simp [AList.mem_erase, hfresh]
    have h1 := childCount_insert_of_not_mem (s.children.erase h) (ctx.handles ctx.spawned)
      spec hfresh2
    have h2 := childCount_erase_of_mem s.children h hmem
    simp only at *
    omega

/-- C1 at a concrete input: one child with handle 0, the substrate returning handle 1. -/
theorem Receive_Terminated_replaces_witness :
    oneChildActor.children.lookup 0 = some mainChildSpec
      ∧ (1 : PID) ∉ oneChildActor.children
      ∧ spawnRequests oneChildTerminated.2.trace = [] ++ [mainChildSpec.Props]
      ∧ (0 : PID) ∉ oneChildTerminated.1.children
      ∧ oneChildTerminated.1.children.lookup 1 = some mainChildSpec
      ∧ watchRequests oneChildTerminated.2.trace = [] ++ [1]
      ∧ childCount oneChildTerminated.1.children = childCount oneChildActor.children :=
  ⟨rfl, by decide,
    Receive_Terminated_replaces (X := Int) oneChildActor oneChildTerminated.1
      { handles := fun n => n, spawned := 1, trace := [] } oneChildTerminated.2 0
      mainChildSpec rfl rfl (by decide)⟩

/-- C3: `Receive` on `Terminated h` with `h` not a key of the children map is ignored: the
actor (its children map included) is unchanged and nothing is requested from the
substrate, neither a spawn nor a watch. -/
theorem Receive_Terminated_unknown_ignored {P X : Type} (s s' : SupervisorActor P)
    (ctx ctx' : Context P) (h : PID)
    (hstep : s.Receive ctx (Message.Terminated h : Message X) = (s', ctx'))
    (hkey : h ∉ s.children) :
    s'.children = s.children
      ∧ s'.specs = s.specs
      ∧ ctx'.trace = ctx.trace
      ∧ spawnRequests ctx'.trace = spawnRequests ctx.trace
      ∧ watchRequests ctx'.trace = watchRequests ctx.trace
      ∧ ctx'.spawned = ctx.spawned := by
  rw [Receive_Terminated_of_not_mem s ctx h hkey] at hstep
  obtain ⟨rfl, rfl⟩ := Prod.mk.inj hstep
  exact ⟨rfl, rfl, rfl, rfl, rfl, rfl⟩

/-- C3 at a concrete input: one child with handle 0, and a notification for handle 7. -/
theorem Receive_Terminated_unknown_ignored_witness :
    (7 : PID) ∉ oneChildActor.children
      ∧ staleTerminated.1.children = oneChildActor.children
      ∧ staleTerminated.1.specs = oneChildActor.specs
      ∧ staleTerminated.2.trace = []
      ∧ spawnRequests staleTerminated.2.trace = ([] : List (Props Int Int String))
      ∧ watchRequests staleTerminated.2.trace = ([] : List PID)
      ∧ staleTerminated.2.spawned = 1 :=
  ⟨by decide,
    Receive_Terminated_unknown_ignored (X := Int) oneChildActor staleTerminated.1
      { handles := fun n => n, spawned := 1, trace := [] } staleTerminated.2 7 rfl
      (by decide)⟩

/-- C4: for every list of specs, `NewSupervisorActor(specs)` receiving `Started` once, with
the substrate returning pairwise distinct handles, ends with exactly `len(specs)` entries:
the handle of the `i`-th spawn is mapped to `specs[i]`, one spawn is requested per spec in
list order, and every spawned handle is watched. -/
theorem Started_spawns_one_child_per_spec {P X : Type} (specs : List (ChildSpec P))
    (s' : SupervisorActor P) (ctx ctx' : Context P)
    (hstep : (NewSupervisorActor specs).Receive ctx (Message.Started : Message X) = (s', ctx'))
    (hdistinct : ∀ i j, i < specs.length → j < specs.length →
      ctx.handles (ctx.spawned + i) = ctx.handles (ctx.spawned + j) → i = j) :
    childCount s'.children = specs.length
      ∧ (∀ i, i < specs.length →
          s'.children.lookup (ctx.handles (ctx.spawned + i)) = specs[i]?)
      ∧ spawnRequests ctx'.trace
          = spawnRequests ctx.trace ++ specs.map (fun spec => spec.Props)
      ∧ watchRequests ctx'.trace
          = watchRequests ctx.trace
            ++ (List.range specs.length).map (fun i => ctx.handles (ctx.spawned + i)) := by
  obtain ⟨_, hc, hl, _, hs, hw, _, _⟩ :=
    Receive_Started_spec (NewSupervisorActor specs) s' ctx ctx' hstep hdistinct
      (fun i _ => AList.not_mem_empty _)
  refine ⟨?_, hl, hs, hw⟩
  simpa [NewSupervisorActor, childCount] using hc

/-- C4 at the specs of `cmd/main.go`, which repeat one `ChildSpec`: two entries. -/
theorem Started_spawns_one_child_per_spec_witness :
    childCount mainStarted.1.children = 2
      ∧ (∀ i, i < 2 →
          mainStarted.1.children.lookup (0 + i) = [mainChildSpec, mainChildSpec][i]?)
      ∧ spawnRequests mainStarted.2.trace = [] ++ [mainChildSpec.Props, mainChildSpec.Props]
      ∧ watchRequests mainStarted.2.trace = [] ++ [0 + 0, 0 + 1] :=
  Started_spawns_one_child_per_spec (X := Int) [mainChildSpec, mainChildSpec] mainStarted.1
    (countingContext _) mainStarted.2 rfl
    (fun i j _ _ hij => by simpa [countingContext] using hij)

/-- C5 fails at one spec and two `Started` messages: the map then holds two entries, not
one, and handle 0 of the first start is still a key. -/
theorem second_Started_counterexample :
    ¬ (childCount startedTwice.1.children = [mainChildSpec].length
        ∧ (0 : PID) ∉ startedTwice.1.children) := by
  intro h
  exact absurd h.1 (by decide)

/-- C5, amended: two `Started` messages handled by the same actor, with pairwise distinct
handles from the substrate, spawn additively: the children map then holds
`2 * len(specs)` entries, the `i`-th handle of the first start is still mapped to
`specs[i]`, and the `i`-th handle of the second start is mapped to `specs[i]` too. -/
theorem second_Started_adds_children {P X : Type} (specs : List (ChildSpec P))
    (s1 s2 : SupervisorActor P) (ctx ctx1 ctx2 : Context P)
    (hfirst : (NewSupervisorActor specs).Receive ctx (Message.Started : Message X) = (s1, ctx1))
    (hsecond : s1.Receive ctx1 (Message.Started : Message X) = (s2, ctx2))
    (hdistinct : ∀ i j, i < 2 * specs.length → j < 2 * specs.length →
      ctx.handles (ctx.spawned + i) = ctx.handles (ctx.spawned + j) → i = j) :
    childCount s2.children = 2 * specs.length
      ∧ (∀ i, i < specs.length →
          s2.children.lookup (ctx.handles (ctx.spawned + i)) = specs[i]?)
      ∧ (∀ i, i < specs.length →
          s2.children.lookup (ctx.handles (ctx.spawned + specs.length + i)) = specs[i]?) := by
  obtain ⟨hsp, hc, hl, ho, _, _, hn, hh⟩ :=
    Receive_Started_spec (NewSupervisorActor specs) s1 ctx ctx1 hfirst
      (fun i j hi hj => hdistinct i j
        (by have : i < specs.length := hi
            omega)
        (by have : j < specs.length := hj
            omega))
      (fun i _ => AList.not_mem_empty _)
  have hsp1 : s1.specs = specs := hsp
  have hc1 : childCount s1.children = specs.length := by
    simpa [NewSupervisorActor, childCount] using hc
  have hl1 : ∀ i, i < specs.length →
      s1.children.lookup (ctx.handles (ctx.spawned + i)) = specs[i]? := hl
  have ho1 : ∀ k, (∀ i, i < specs.length → k ≠ ctx.handles (ctx.spawned + i)) →
      s1.children.lookup k = none := by
    intro k hk
    rw [ho k hk]
    exact AList.lookup_empty _
  have hn1 : ctx1.spawned = ctx.spawned + specs.length := hn
  have hcross : ∀ i j, i < specs.length → j < specs.length →
      ctx.handles (ctx.spawned + specs.length + i) ≠ ctx.handles (ctx.spawned + j) := by
    intro i j hi hj heq
    have := hdistinct (specs.length + i) j (by omega) (by omega)
      (by simpa [Nat.add_assoc] using heq)
    omega
  obtain ⟨_, hc2, hl2, ho2, _, _, _, _⟩ :=
    Receive_Started_spec s1 s2 ctx1 ctx2 hsecond
      (by
        rw [hsp1, hn1, hh]
        intro i j hi hj heq
        have := hdistinct (specs.length + i) (specs.length + j) (by omega) (by omega)
          (by simpa [Nat.add_assoc] using heq)
        omega)
      (by
        rw [hsp1, hn1, hh]
        intro i hi
        rw [← AList.lookup_eq_none]
        exact ho1 _ (fun j hj => hcross i j hi hj))
  rw [hsp1, hn1, hh] at hl2 ho2
  rw [hsp1] at hc2
  refine ⟨by omega, ?_, hl2⟩
  intro i hi
  rw [ho2 _ (fun j hj => (hcross j i hj hi).symm)]
  exact hl1 i hi

/-- C5, amended, at one spec: two entries after the second start. -/
theorem second_Started_adds_children_witness :
    childCount startedTwice.1.children = 2 * 1
      ∧ (∀ i, i < 1 → startedTwice.1.children.lookup (0 + i) = [mainChildSpec][i]?)
      ∧ (∀ i, i < 1 → startedTwice.1.children.lookup (0 + 1 + i) = [mainChildSpec][i]?) :=
  second_Started_adds_children (X := Int) [mainChildSpec] startedOnce.1 startedTwice.1
    (countingContext _) startedOnce.2 startedTwice.2 rfl rfl
    (fun i j _ _ hij => by simpa [countingContext] using hij)

/-- C6: sibling isolation.  When `Receive` handles `Terminated h` and the handle the
substrate would return is not a key, every other key of the children map keeps its entry
with the same spec, and the only spawn requested, if any, is from the props of the spec
`h` was mapped to. -/
theorem Receive_Terminated_keeps_siblings {P X : Type} (s s' : SupervisorActor P)
    (ctx ctx' : Context P) (h : PID)
    (hstep : s.Receive ctx (Message.Terminated h : Message X) = (s', ctx'))
    (hfresh : ctx.handles ctx.spawned ∉ s.children) :
    (∀ k, k ∈ s.children → k ≠ h → s'.children.lookup k = s.children.lookup k)
      ∧ spawnRequests ctx'.trace
          = spawnRequests ctx.trace
            ++ (s.children.lookup h).toList.map (fun spec => spec.Props) := by
  cases hlook : s.children.lookup h with
  | none =>
      rw [Receive_Terminated_of_not_mem s ctx h (AList.lookup_eq_none.mp hlook)] at hstep
      obtain ⟨rfl, rfl⟩ := Prod.mk.inj hstep
      simp
  | some spec =>
      rw [Receive_Terminated_of_lookup s ctx h spec hlook] at hstep
      obtain ⟨rfl, rfl⟩ := Prod.mk.inj hstep
      refine ⟨?_, ?_⟩
      · intro k hk hkh
        have hkn : k ≠ ctx.handles ctx.spawned := fun heq => hfresh (heq ▸ hk)
        simp only
        rw [AList.lookup_insert_ne hkn, AList.lookup_erase_ne hkh]
      · simp [spawnRequests_append, spawnRequests]

/-- C6 at Scenario B: child 1 (handle 0) terminates, child 2 (handle 1) keeps its entry. -/
theorem Receive_Terminated_keeps_siblings_witness :
    (2 : PID) ∉ scenarioBStarted.1.children
      ∧ (∀ k, k ∈ scenarioBStarted.1.children → k ≠ 0 →
          scenarioB.1.children.lookup k = scenarioBStarted.1.children.lookup k)
      ∧ spawnRequests scenarioB.2.trace
          = spawnRequests scenarioBStarted.2.trace
            ++ (scenarioBStarted.1.children.lookup 0).toList.map (fun spec => spec.Props) :=
  ⟨by decide,
    Receive_Terminated_keeps_siblings (X := Int) scenarioBStarted.1 scenarioB.1
      scenarioBStarted.2 scenarioB.2 0 rfl (by decide)⟩

/-- C2 fails on the fourth failure: the decider configured for `OneForOne` resolves four
failures to Restart, Restart, Restart, Restart, not to Restart, Restart, Restart,
Escalate; and the supervisor answers the fourth termination of its child like the first
three, by a respawn (handle 4 is the child after five spawns). -/
theorem OneForOne_fourth_failure_counterexample :
    ["fault", "fault", "fault", "fault"].map
        (NewSupervisedFunctionalActor mainTransform OneForOne :
          Props Int Int String).supervisor.directiveFor
      ≠ [some Directive.RestartDirective, some Directive.RestartDirective,
          some Directive.RestartDirective, some Directive.EscalateDirective]
      ∧ scenarioAOneForOne.1.children.lookup 4 = some oneForOneSpec
      ∧ (spawnRequests scenarioAOneForOne.2.trace).length = 5 := by
  refine ⟨by decide, rfl, by decide⟩

/-- C2, amended: `NewSupervisedFunctionalActor(transform, OneForOne)` configures a
one-for-one strategy with 3 retries and a 5 s window whose decider resolves every failure
to Restart, so any number of failures, four included, resolve to Restart each; and a
supervisor whose one child fails four times in a row answers each failure by a respawn
from the same props, ending with exactly the last replacement as its child. -/
theorem OneForOne_every_failure_restarts {T U R X : Type} (transform : T → Except String U)
    (name : String) (ctx : Context (Props T U R)) (reasons : List R) :
    (NewSupervisedFunctionalActor transform OneForOne : Props T U R).supervisor.isAllForOne
        = false
      ∧ (NewSupervisedFunctionalActor transform OneForOne :
          Props T U R).supervisor.maxNrOfRetries? = some 3
      ∧ (NewSupervisedFunctionalActor transform OneForOne :
          Props T U R).supervisor.withinDuration? = some (5 * Second)
      ∧ reasons.map
          (NewSupervisedFunctionalActor transform OneForOne :
            Props T U R).supervisor.directiveFor
        = List.replicate reasons.length (some Directive.RestartDirective)
      ∧ (scenarioA X
            { Name := name, Props := NewSupervisedFunctionalActor transform OneForOne }
            ctx).1.children
        = AList.singleton (ctx.handles (ctx.spawned + 4))
            { Name := name, Props := NewSupervisedFunctionalActor transform OneForOne }
      ∧ spawnRequests (scenarioA X
            { Name := name, Props := NewSupervisedFunctionalActor transform OneForOne }
            ctx).2.trace
        = spawnRequests ctx.trace
          ++ List.replicate 5 (NewSupervisedFunctionalActor transform OneForOne) := by
  refine ⟨rfl, rfl, rfl, ?_, ?_⟩
  · induction reasons with
    | nil => rfl
    | cons r rest ih =>
        rw [List.map_cons, ih]
        rfl
  · exact scenarioA_respawns X _ ctx

/-- C7 fails at Scenario B: after child 1 (handle 0) terminates, handle 1 of child 2 is
still a key of the children map. -/
theorem AllForOne_sibling_counterexample :
    ¬ ((0 : PID) ∉ scenarioB.1.children ∧ (1 : PID) ∉ scenarioB.1.children) := by
  decide

/-- C7, amended: for a supervisor with two children whose specs were built with
`NewSupervisedFunctionalActor(transform, AllForOne)`, the termination of child 1 replaces
child 1's handle only: the old handle of child 1 is no longer a key, the new handle is
mapped to child 1's spec, child 2's handle remains a key mapped to child 2's spec, the one
spawn requested is from child 1's props, and the number of entries is unchanged. -/
theorem AllForOne_Terminated_replaces_one {T U R X : Type} (s s' : SupervisorActor (Props T U R))
    (ctx ctx' : Context (Props T U R)) (h1 h2 : PID) (c1 c2 : ChildSpec (Props T U R))
    (t1 t2 : T → Except String U)
    (hstep : s.Receive ctx (Message.Terminated h1 : Message X) = (s', ctx'))
    (hp1 : c1.Props = NewSupervisedFunctionalActor t1 AllForOne)
    (hp2 : c2.Props = NewSupervisedFunctionalActor t2 AllForOne)
    (hk1 : s.children.lookup h1 = some c1)
    (hk2 : s.children.lookup h2 = some c2)
    (hne : h1 ≠ h2)
    (hfresh : ctx.handles ctx.spawned ∉ s.children) :
    c1.Props.supervisor.isAllForOne = true
      ∧ c2.Props.supervisor.isAllForOne = true
      ∧ h1 ∉ s'.children
      ∧ s'.children.lookup (ctx.handles ctx.spawned) = some c1
      ∧ s'.children.lookup h2 = some c2
      ∧ spawnRequests ctx'.trace = spawnRequests ctx.trace ++ [c1.Props]
      ∧ childCount s'.children = childCount s.children := by
  have hmem1 : h1 ∈ s.children := mem_of_lookup_eq_some hk1
  have hmem2 : h2 ∈ s.children := mem_of_lookup_eq_some hk2
  have hn1 : h1 ≠ ctx.handles ctx.spawned := fun heq => hfresh (heq ▸ hmem1)
  have hn2 : h2 ≠ ctx.handles ctx.spawned := fun heq => hfresh (heq ▸ hmem2)
  rw [Receive_Terminated_of_lookup s ctx h1 c1 hk1] at hstep
  obtain ⟨rfl, rfl⟩ := Prod.mk.inj hstep
  refine ⟨by rw [hp1]; rfl, by rw [hp2]; rfl, ?_, ?_, ?_, ?_, ?_⟩
  · simp [AList.mem_insert, AList.mem_erase, hn1]
  · simp [AList.lookup_insert]
  · simp only
    rw [AList.lookup_insert_ne hn2, AList.lookup_erase_ne (Ne.symm hne), hk2]
  · simp [spawnRequests_append, spawnRequests]
  · have hfresh2 : ctx.handles ctx.spawned ∉ s.children.erase h1 := by
      simp [AList.mem_erase, hfresh]
    have e1 := childCount_insert_of_not_mem (s.children.erase h1) (ctx.handles ctx.spawned)
      c1 hfresh2
    have e2 := childCount_erase_of_mem s.children h1 hmem1
    simp only at *
    omega

/-- C7, amended, at Scenario B: handle 0 is replaced by handle 2, handle 1 stays. -/
theorem AllForOne_Terminated_replaces_one_witness :
    (allForOneSpec "child1").Props.supervisor.isAllForOne = true
      ∧ (allForOneSpec "child2").Props.supervisor.isAllForOne = true
      ∧ (0 : PID) ∉ scenarioB.1.children
      ∧ scenarioB.1.children.lookup 2 = some (allForOneSpec "child1")
      ∧ scenarioB.1.children.lookup 1 = some (allForOneSpec "child2")
      ∧ spawnRequests scenarioB.2.trace
          = spawnRequests scenarioBStarted.2.trace ++ [(allForOneSpec "child1").Props]
      ∧ childCount scenarioB.1.children = childCount scenarioBStarted.1.children :=
  AllForOne_Terminated_replaces_one (X := Int) scenarioBStarted.1 scenarioB.1
    scenarioBStarted.2 scenarioB.2 0 1 (allForOneSpec "child1") (allForOneSpec "child2")
    mainTransform mainTransform rfl rfl rfl rfl rfl (by decide) (by decide)

/-- C8 fails for a child built with `OneForOneStop`: when it terminates a replacement is
spawned and the number of entries does not decrease. -/
theorem Stop_counterexample :
    ¬ ((spawnRequests stopTerminated.2.trace).length = 0
        ∧ childCount stopTerminated.1.children < childCount stopActor.children) := by
  decide

/-- C8, amended: when a child whose spec was built with a Stop strategy (`OneForOneStop` or
`AllForOneStop`, whose decider returns Stop for every reason) terminates and the substrate
returns a handle that is not a key, `Receive` removes that child's entry, spawns one
replacement from the same props and maps the new handle to the same spec, so the number
of entries is unchanged. -/
theorem Stop_Terminated_respawns {T U R X : Type} (s s' : SupervisorActor (Props T U R))
    (ctx ctx' : Context (Props T U R)) (h : PID) (spec : ChildSpec (Props T U R))
    (transform : T → Except String U) (strategy : RestartStrategy)
    (hstep : s.Receive ctx (Message.Terminated h : Message X) = (s', ctx'))
    (hstop : strategy = OneForOneStop ∨ strategy = AllForOneStop)
    (hprops : spec.Props = NewSupervisedFunctionalActor transform strategy)
    (hkey : s.children.lookup h = some spec)
    (hfresh : ctx.handles ctx.spawned ∉ s.children) :
    (∀ reason, spec.Props.supervisor.directiveFor reason = some Directive.StopDirective)
      ∧ h ∉ s'.children
      ∧ spawnRequests ctx'.trace = spawnRequests ctx.trace ++ [spec.Props]
      ∧ s'.children.lookup (ctx.handles ctx.spawned) = some spec
      ∧ childCount s'.children = childCount s.children := by
  have hmem : h ∈ s.children := mem_of_lookup_eq_some hkey
  have hne : h ≠ ctx.handles ctx.spawned := fun heq => hfresh (heq ▸ hmem)
  rw [Receive_Terminated_of_lookup s ctx h spec hkey] at hstep
  obtain ⟨rfl, rfl⟩ := Prod.mk.inj hstep
  refine ⟨?_, ?_, ?_, ?_, ?_⟩
  · intro reason
    rw [hprops]
    rcases hstop with rfl | rfl <;> rfl
  · simp [AList.mem_insert, AList.mem_erase, hne]
  · simp [spawnRequests_append, spawnRequests]
  · simp [AList.lookup_insert]
  · have hfresh2 : ctx.handles ctx.spawned ∉ s.children.erase h := by
      simp [AList.mem_erase, hfresh]
    have e1 := childCount_insert_of_not_mem (s.children.erase h) (ctx.handles ctx.spawned)
      spec hfresh2
    have e2 := childCount_erase_of_mem s.children h hmem
    simp only at *
    omega

/-- C8, amended, at a `OneForOneStop` child with handle 0: it is replaced by handle 1. -/
theorem Stop_Terminated_respawns_witness :
    (∀ reason : String,
        stopSpec.Props.supervisor.directiveFor reason = some Directive.StopDirective)
      ∧ (0 : PID) ∉ stopTerminated.1.children
      ∧ spawnRequests stopTerminated.2.trace = [] ++ [stopSpec.Props]
      ∧ stopTerminated.1.children.lookup 1 = some stopSpec
      ∧ childCount stopTerminated.1.children = childCount stopActor.children :=
  Stop_Terminated_respawns (X := Int) stopActor stopTerminated.1
    { handles := fun n => n, spawned := 1, trace := [] } stopTerminated.2 0 stopSpec
    mainTransform OneForOneStop rfl (Or.inl rfl) rfl rfl (by decide)

/-- C9: for every message that is neither `*actor.Started` nor of the declared input type,
`FunctionalActor.Receive` does not call the transform, prints only the
"Unhandled message type" line, and returns normally, whatever the transform is. -/
theorem FunctionalActor_unhandled {X T U : Type} (fa : FunctionalActor T U)
    (asInput : Message X → Option T) (msg : Message X)
    (hstarted : msg ≠ Message.Started) (hinput : asInput msg = none) :
    fa.Receive asInput msg =
        { trace := [ActorEffect.PrintfUnhandled
            "FunctionalActor - Unhandled message type: %T\n" msg],
          panic := none }
      ∧ transformCalls (fa.Receive asInput msg).trace = []
      ∧ (fa.Receive asInput msg).panic = none := by
  cases msg with
  | Started => exact absurd rfl hstarted
  | Terminated who => simp [FunctionalActor.Receive, hinput, transformCalls]
  | other value => simp [FunctionalActor.Receive, hinput, transformCalls]

/-- C9 at a string sent to the `FunctionalActor[int, int]` of `cmd/main.go`. -/
theorem FunctionalActor_unhandled_witness :
    stringMessage ≠ Message.Started
      ∧ asInt stringMessage = none
      ∧ mainActor.Receive asInt stringMessage =
        { trace := [ActorEffect.PrintfUnhandled
            "FunctionalActor - Unhandled message type: %T\n" stringMessage],
          panic := none }
      ∧ transformCalls (mainActor.Receive asInt stringMessage).trace = []
      ∧ (mainActor.Receive asInt stringMessage).panic = none :=
  ⟨by decide, rfl,
    FunctionalActor_unhandled mainActor asInt stringMessage (by decide) rfl⟩

/-- C10 fails for the declared input type `any` and a `*actor.Started` message: the
message matches the input type, yet the transform is not called. -/
theorem FunctionalActor_Started_counterexample :
    asAny Message.Started = some Message.Started
      ∧ (transformCalls (anyActor.Receive asAny Message.Started).trace).length ≠ 1 := by
  decide

/-- C10, amended: for every declared input type and every message that matches it and is
not `*actor.Started`, `FunctionalActor.Receive` calls the transform exactly once, on that
message, and when the transform returns it prints the pair of the message and the
result and returns normally; a `*actor.Started` message never calls the transform, also
when it matches the declared input type. -/
theorem FunctionalActor_transforms_input {X T U : Type} (fa : FunctionalActor T U)
    (asInput : Message X → Option T) (msg : Message X) (input : T)
    (hstarted : msg ≠ Message.Started) (hinput : asInput msg = some input) :
    transformCalls (fa.Receive asInput msg).trace = [input]
      ∧ (∀ result, fa.transform input = Except.ok result →
          fa.Receive asInput msg =
            { trace := [ActorEffect.Transform input,
                ActorEffect.PrintfReceived
                  "FunctionalActor - Received: %v, Transformed: %v\n" input result],
              panic := none })
      ∧ transformCalls (fa.Receive asInput (Message.Started : Message X)).trace = [] := by
  refine ⟨?_, ?_, rfl⟩
  · cases msg with
    | Started => exact absurd rfl hstarted
    | Terminated who =>
        cases ht : fa.transform input <;>
          simp [FunctionalActor.Receive, hinput, ht, transformCalls]
    | other value =>
        cases ht : fa.transform input <;>
          simp [FunctionalActor.Receive, hinput, ht, transformCalls]
  · intro result hresult
    cases msg with
    | Started => exact absurd rfl hstarted
    | Terminated who => simp [FunctionalActor.Receive, hinput, hresult]
    | other value => simp [FunctionalActor.Receive, hinput, hresult]

/-- C10, amended, at the message 10 of `cmd/main.go`: the transform gives 22. -/
theorem FunctionalActor_transforms_input_witness :
    intMessage ≠ Message.Started
      ∧ asInt intMessage = some 10
      ∧ transformCalls (mainActor.Receive asInt intMessage).trace = [10]
      ∧ (∀ result, mainActor.transform 10 = Except.ok result →
          mainActor.Receive asInt intMessage =
            { trace := [ActorEffect.Transform 10,
                ActorEffect.PrintfReceived
                  "FunctionalActor - Received: %v, Transformed: %v\n" 10 result],
              panic := none })
      ∧ transformCalls (mainActor.Receive asInt (Message.Started : Message GoValue)).trace
        = [] :=
  ⟨by decide, rfl,
    FunctionalActor_transforms_input mainActor asInt intMessage 10 (by decide) rfl⟩

/-- C11 fails at the value 8, outside the named constants: what is configured for it is
the library default, with 10 retries in a 10 s window, not 3 retries in a 5 s window. -/
theorem unnamed_strategy_counterexample :
    ¬ ((NewSupervisedFunctionalActor mainTransform 8 :
          Props Int Int String).supervisor.isAllForOne = false
        ∧ (NewSupervisedFunctionalActor mainTransform 8 :
          Props Int Int String).supervisor.directiveFor "fault"
            = some Directive.RestartDirective
        ∧ (NewSupervisedFunctionalActor mainTransform 8 :
          Props Int Int String).supervisor.maxNrOfRetries? = some 3
        ∧ (NewSupervisedFunctionalActor mainTransform 8 :
          Props Int Int String).supervisor.withinDuration? = some (5 * Second)) := by
  decide

/-- C11, amended: `NewSupervisedFunctionalActor` returns props carrying the transform for
every `RestartStrategy` value; the zero value yields scope one-for-one, directive Restart,
3 retries and a 5 s window; every value outside the eight named constants yields the
library default strategy: scope one-for-one, directive Restart, 10 retries and a 10 s
window. -/
theorem unnamed_strategy_uses_library_default {T U R : Type}
    (transform : T → Except String U) (strategy : RestartStrategy) (reason : R) :
    (NewSupervisedFunctionalActor transform strategy : Props T U R).producer.transform
        = transform
      ∧ (strategy < OneForOne ∨ AllForOneEscalate < strategy →
          (NewSupervisedFunctionalActor transform strategy : Props T U R).supervisor
              = SupervisorStrategy.DefaultSupervisorStrategy
            ∧ (NewSupervisedFunctionalActor transform strategy :
                Props T U R).supervisor.isAllForOne = false
            ∧ (NewSupervisedFunctionalActor transform strategy :
                Props T U R).supervisor.directiveFor reason
              = some Directive.RestartDirective
            ∧ (NewSupervisedFunctionalActor transform strategy :
                Props T U R).supervisor.maxNrOfRetries? = some 10
            ∧ (NewSupervisedFunctionalActor transform strategy :
                Props T U R).supervisor.withinDuration? = some (10 * Second))
      ∧ (NewSupervisedFunctionalActor transform 0 : Props T U R).supervisor.isAllForOne
          = false
      ∧ (NewSupervisedFunctionalActor transform 0 : Props T U R).supervisor.directiveFor
          reason = some Directive.RestartDirective
      ∧ (NewSupervisedFunctionalActor transform 0 : Props T U R).supervisor.maxNrOfRetries?
          = some 3
      ∧ (NewSupervisedFunctionalActor transform 0 : Props T U R).supervisor.withinDuration?
          = some (5 * Second) := by
  refine ⟨rfl, ?_, rfl, rfl, rfl, rfl⟩
  intro hout
  have hout1 : (strategy : Int) < 0 ∨ (7 : Int) < (strategy : Int) := hout
  have hne : ∀ k : Int, 0 ≤ k → k ≤ 7 → ¬ ((strategy : Int) = k) := by
    intro k hk0 hk7 hk
    rw [hk] at hout1
    rcases hout1 with h | h
    · exact absurd (lt_of_lt_of_le h hk0) (lt_irrefl _)
    · exact absurd (lt_of_lt_of_le h hk7) (lt_irrefl _)
  have h0 : ¬ (strategy = OneForOne) := hne 0 (by decide) (by decide)
  have h1 : ¬ (strategy = AllForOne) := hne 1 (by decide) (by decide)
  have h2 : ¬ (strategy = OneForOneResume) := hne 2 (by decide) (by decide)
  have h3 : ¬ (strategy = AllForOneResume) := hne 3 (by decide) (by decide)
  have h4 : ¬ (strategy = OneForOneStop) := hne 4 (by decide) (by decide)
  have h5 : ¬ (strategy = AllForOneStop) := hne 5 (by decide) (by decide)
  have h6 : ¬ (strategy = OneForOneEscalate) := hne 6 (by decide) (by decide)
  have h7 : ¬ (strategy = AllForOneEscalate) := hne 7 (by decide) (by decide)
  have hdefault : (NewSupervisedFunctionalActor transform strategy : Props T U R).supervisor
      = SupervisorStrategy.DefaultSupervisorStrategy := by
    simp only [NewSupervisedFunctionalActor, if_neg h0, if_neg h1, if_neg h2, if_neg h3,
      if_neg h4, if_neg h5, if_neg h6, if_neg h7]
  rw [hdefault]
  exact ⟨rfl, rfl, rfl, rfl, rfl⟩

/-- C11, amended, at the value 8: the library default, 10 retries in a 10 s window. -/
theorem unnamed_strategy_uses_library_default_witness :
    ((8 : RestartStrategy) < OneForOne ∨ AllForOneEscalate < (8 : RestartStrategy))
      ∧ (NewSupervisedFunctionalActor mainTransform 8 : Props Int Int String).supervisor
          = SupervisorStrategy.DefaultSupervisorStrategy
      ∧ (NewSupervisedFunctionalActor mainTransform 8 :
          Props Int Int String).supervisor.isAllForOne = false
      ∧ (NewSupervisedFunctionalActor mainTransform 8 :
          Props Int Int String).supervisor.directiveFor "fault"
        = some Directive.RestartDirective
      ∧ (NewSupervisedFunctionalActor mainTransform 8 :
          Props Int Int String).supervisor.maxNrOfRetries? = some 10
      ∧ (NewSupervisedFunctionalActor mainTransform 8 :
          Props Int Int String).supervisor.withinDuration? = some (10 * Second) :=
  ⟨Or.inr (by decide),
    (unnamed_strategy_uses_library_default mainTransform 8 "fault").2.1
      (Or.inr (by decide))⟩

/-- C17: for each of the eight named constants, in the order of their declaration,
`NewSupervisedFunctionalActor` configures the scope (all-for-one or not), the directive of
the decider, whatever the failure reason, the retry count 3 and the window 5 s. -/
theorem named_strategies_configured {T U R : Type} (transform : T → Except String U)
    (reason : R) :
    [OneForOne, AllForOne, OneForOneResume, AllForOneResume,
        OneForOneStop, AllForOneStop, OneForOneEscalate, AllForOneEscalate].map
      (fun strategy =>
        ((NewSupervisedFunctionalActor transform strategy : Props T U R).supervisor.isAllForOne,
          (NewSupervisedFunctionalActor transform strategy :
            Props T U R).supervisor.directiveFor reason,
          (NewSupervisedFunctionalActor transform strategy :
            Props T U R).supervisor.maxNrOfRetries?,
          (NewSupervisedFunctionalActor transform strategy :
            Props T U R).supervisor.withinDuration?))
    = [(false, some Directive.RestartDirective, some 3, some (5 * Second)),
        (true, some Directive.RestartDirective, some 3, some (5 * Second)),
        (false, some Directive.ResumeDirective, some 3, some (5 * Second)),
        (true, some Directive.ResumeDirective, some 3, some (5 * Second)),
        (false, some Directive.StopDirective, some 3, some (5 * Second)),
        (true, some Directive.StopDirective, some 3, some (5 * Second)),
        (false, some Directive.EscalateDirective, some 3, some (5 * Second)),
        (true, some Directive.EscalateDirective, some 3, some (5 * Second))] := by
  rfl

/-- C19: `Receive` on a message that is neither `*actor.Started` nor `*actor.Terminated`
returns the actor and the context as they were: specs and children map unchanged, nothing
added to the trace of calls (no spawn, no watch, nothing sent to a child). -/
theorem Receive_other_ignored {P X : Type} (s : SupervisorActor P) (ctx : Context P)
    (value : X) :
    s.Receive ctx (Message.other value) = (s, ctx)
      ∧ (s.Receive ctx (Message.other value)).1.specs = s.specs
      ∧ (s.Receive ctx (Message.other value)).1.children = s.children
      ∧ (s.Receive ctx (Message.other value)).2.trace = ctx.trace
      ∧ spawnRequests (s.Receive ctx (Message.other value)).2.trace = spawnRequests ctx.trace
      ∧ watchRequests (s.Receive ctx (Message.other value)).2.trace
        = watchRequests ctx.trace :=
  ⟨rfl, rfl, rfl, rfl, rfl, rfl⟩

/-- C14: `Compose(f, g)` applies `g` first and then `f`; composing multiply-by-2 with
increment maps 3 to 8; and composition is associative at every argument. -/
theorem Compose_apply {A B C D : Type} (f : C → D) (g : B → C) (h : A → B) (a : A) (b : B) :
    Compose g h a = g (h a)
      ∧ Compose f g b = f (g b)
      ∧ Compose (fun x : Int => x * 2) (fun x : Int => x + 1) 3 = 8
      ∧ Compose f (Compose g h) a = Compose (Compose f g) h a :=
  ⟨rfl, rfl, rfl, rfl⟩

/-- C15: `Some(v).Map(fn).GetOrElse(d)` is `fn(v)` and `None().Map(fn).GetOrElse(d)` is
`d`: `Map` applies `fn` to the value when there is one and gives an absent value
otherwise, `GetOrElse` gives the value when there is one and the default otherwise; and
`Some(100).Map(x*3).GetOrElse(0)` is 300. -/
theorem Maybe_Map_GetOrElse {T : Type} (m : Maybe T) (v : T) (fn : T → T) (d : T) :
    ((Some v).Map fn).GetOrElse d = fn v
      ∧ ((None : Maybe T).Map fn).GetOrElse d = d
      ∧ (m.Map fn).value = m.value.map fn
      ∧ m.GetOrElse d = m.value.getD d
      ∧ ((Some (100 : Int)).Map (fun x => x * 3)).GetOrElse 0 = 300 := by
  refine ⟨rfl, rfl, ?_, ?_, rfl⟩
  · cases hm : m.value <;> simp [Maybe.Map, hm, None, Some]
  · cases hm : m.value <;> simp [Maybe.GetOrElse, hm]

/-- C20: `Maybe` with `Some` and `Bind` satisfies the monad laws, and `Map` is `Bind`
followed by `Some`: `Some(v).Bind(f) = f(v)`, `m.Bind(Some) = m`,
`m.Bind(f).Bind(g) = m.Bind(x => f(x).Bind(g))` and `m.Map(fn) = m.Bind(x => Some(fn(x)))`. -/
theorem Maybe_monad_laws {T : Type} (m : Maybe T) (v : T) (f g : T → Maybe T) (fn : T → T) :
    (Some v).Bind f = f v
      ∧ m.Bind Some = m
      ∧ (m.Bind f).Bind g = m.Bind (fun x => (f x).Bind g)
      ∧ m.Map fn = m.Bind (fun x => Some (fn x)) := by
  obtain ⟨value⟩ := m
  cases value <;> exact ⟨rfl, rfl, rfl, rfl⟩

/-! ## Lemmas on `functional.go` -/

/-- The loop of `Map` after `done.length` iterations: the part of `result` already
written is kept, the part still holding zero values is overwritten element by element,
and `list` is not written to. -/
theorem mapRange_spec {T U : Type} (fn : T → U) (rest : List T) :
    ∀ (list : List T) (done pending : List U), pending.length = rest.length →
      mapRange fn rest done.length { list := list, result := done ++ pending }
        = { list := list, result := done ++ rest.map fn } := by
  induction rest with
  | nil =>
      intro list done pending hlen
      have hp : pending = [] := List.length_eq_zero.mp hlen
      simp [mapRange, hp]
  | cons v rest ih =>
      intro list done pending hlen
      cases pending with
      | nil => simp at hlen
      | cons u pending =>
          have hlen1 : pending.length = rest.length := by simpa using hlen
          have hset : (done ++ u :: pending).set done.length (fn v)
              = (done ++ [fn v]) ++ pending := by
            simp [List.set_append]
          have hidx : done.length + 1 = (done ++ [fn v]).length := by simp
          simp only [mapRange, hset]
          rw [hidx, ih list (done ++ [fn v]) pending hlen1]
          simp

/-- What `Map` returns is the list of the images, in order. -/
theorem Map_result {T U : Type} [Inhabited U] (fn : T → U) (list : List T) :
    Map fn list = { list := list, result := list.map fn } := by
  have h := mapRange_spec fn list list [] (goMake list.length) (by simp [goMake])
  simpa [Map] using h

/-- The fold law of `Reduce` at the end of the list. -/
theorem Reduce_append_singleton {T U : Type} (fn : U → T → U) (xs : List T) (x : T) :
    ∀ init : U, Reduce fn init (xs ++ [x]) = fn (Reduce fn init xs) x := by
  induction xs with
  | nil => intro init; rfl
  | cons y ys ih => intro init; exact ih (fn init y)

/-- The input of length `n + 1` is the input of length `n` followed by `n`. -/
theorem rangeInput_succ (n : Nat) : rangeInput (n + 1) = rangeInput n ++ [(n : Int)] := by
  simp [rangeInput, List.range_succ]

/-- An integer that fits in 64 bits is its own representative. -/
theorem wrapInt64_of_fits (z : Int) (hlo : -(2 ^ 63) ≤ z) (hhi : z < 2 ^ 63) :
    wrapInt64 z = z := by
  unfold wrapInt64
  rw [Int.emod_eq_of_lt (by omega) (by omega)]
  omega

/-- Wrapping an intermediate sum does not change the wrapped total. -/
theorem wrapInt64_add_wrapInt64 (a b : Int) :
    wrapInt64 (wrapInt64 a + b) = wrapInt64 (a + b) := by
  unfold wrapInt64
  omega

/-- With Go's addition `Reduce` accumulates the sum modulo `2^64`. -/
theorem Reduce_intAdd (ints : List Int) :
    ∀ a : Int, Reduce intAdd (wrapInt64 a) ints = wrapInt64 (a + ints.sum) := by
  induction ints with
  | nil => intro a; simp [Reduce]
  | cons y ys ih =>
      intro a
      have hstep : intAdd (wrapInt64 a) y = wrapInt64 (a + y) :=
        wrapInt64_add_wrapInt64 a y
      simp only [Reduce, hstep, ih, List.sum_cons, add_assoc]

/-- C12: `Map(fn, list)` returns a list of the same length whose `i`-th element is
`fn(list[i])` for every index `i`, that is the images in order; `Map` over the empty list
is empty; and the input list is as it was. -/
theorem Map_maps_each_element {T U : Type} [Inhabited U] (fn : T → U) (list : List T)
    (i : Nat) :
    (Map fn list).result.length = list.length
      ∧ (Map fn list).result[i]? = (list[i]?).map fn
      ∧ (Map fn list).result = list.map fn
      ∧ (Map fn ([] : List T)).result = []
      ∧ (Map fn list).list = list := by
  rw [Map_result]
  refine ⟨by simp, by simp, rfl, rfl, rfl⟩

/-- C13 fails with Go's addition on `[MaxInt64, 1]`: `Reduce` returns `MinInt64`, which is
not the sum of the list, `2^63`. -/
theorem Reduce_sum_overflow_counterexample :
    Reduce intAdd 0 [9223372036854775807, 1] = -9223372036854775808
      ∧ Reduce intAdd 0 [9223372036854775807, 1]
        ≠ ([9223372036854775807, 1] : List Int).sum := by
  decide

/-- C13, amended: `Reduce` is the left fold: on the empty list it returns `init`, and on
`xs ++ [x]` it returns `fn` of its result on `xs` and `x`; with Go's integer addition from
0 it returns the sum of the list modulo `2^64`, which is the sum of the list whenever that
sum fits in 64 bits, and on `0, ..., n - 1` it returns `n (n - 1) / 2` whenever that fits. -/
theorem Reduce_left_fold {T U : Type} (fn : U → T → U) (init : U) (xs : List T) (x : T)
    (ints : List Int) (n : Nat) :
    Reduce fn init [] = init
      ∧ Reduce fn init (xs ++ [x]) = fn (Reduce fn init xs) x
      ∧ Reduce fn init xs = xs.foldl fn init
      ∧ Reduce intAdd 0 ints = wrapInt64 ints.sum
      ∧ (-(2 ^ 63) ≤ ints.sum → ints.sum < 2 ^ 63 → Reduce intAdd 0 ints = ints.sum)
      ∧ ((n : Int) * ((n : Int) - 1) / 2 < 2 ^ 63 →
          Reduce intAdd 0 (rangeInput n) = (n : Int) * ((n : Int) - 1) / 2) := by
  have hfold : ∀ (l : List T) (a : U), Reduce fn a l = l.foldl fn a := by
    intro l
    induction l with
    | nil => intro a; rfl
    | cons y ys ih => intro a; exact ih (fn a y)
  have hwrap : ∀ l : List Int, Reduce intAdd 0 l = wrapInt64 l.sum := by
    intro l
    simpa [wrapInt64] using Reduce_intAdd l 0
  have hsum : ∀ k : Nat, (rangeInput k).sum = (k : Int) * ((k : Int) - 1) / 2 := by
    intro k
    have h2 : 2 * (rangeInput k).sum = (k : Int) * ((k : Int) - 1) := by
      induction k with
      | zero => rfl
      | succ k ih =>
          rw [rangeInput_succ, List.sum_append, List.sum_singleton]
          push_cast
          linarith
    omega
  refine ⟨rfl, Reduce_append_singleton fn xs x init, hfold xs init, hwrap ints, ?_, ?_⟩
  · intro hlo hhi
    rw [hwrap ints]
    exact wrapInt64_of_fits _ hlo hhi
  · intro hfits
    rw [hwrap, hsum n]
    apply wrapInt64_of_fits _ _ hfits
    have hn : (0 : Int) ≤ (n : Int) * ((n : Int) - 1) := by
      rcases Nat.eq_zero_or_pos n with h0 | hpos
      · simp [h0]
      · have h1 : (1 : Int) ≤ (n : Int) := by exact_mod_cast hpos
        nlinarith
    omega

/-- C13, amended, at the list `[1, 2, 3]` and at `n = 5`: the sums 6 and 10 fit. -/
theorem Reduce_left_fold_witness :
    -(2 ^ 63) ≤ ([1, 2, 3] : List Int).sum
      ∧ ([1, 2, 3] : List Int).sum < 2 ^ 63
      ∧ Reduce intAdd 0 [1, 2, 3] = ([1, 2, 3] : List Int).sum
      ∧ ((5 : Nat) : Int) * (((5 : Nat) : Int) - 1) / 2 < 2 ^ 63
      ∧ Reduce intAdd 0 (rangeInput 5) = ((5 : Nat) : Int) * (((5 : Nat) : Int) - 1) / 2 :=
  ⟨by decide, by decide,
    (Reduce_left_fold intAdd 0 [] 0 [1, 2, 3] 5).2.2.2.2.1
      (by decide) (by decide),
    by decide,
    (Reduce_left_fold intAdd 0 [] 0 [1, 2, 3] 5).2.2.2.2.2
      (by decide)⟩

/-- A slice of the memory has as many elements as its length says. -/
theorem read_length_of_valid {T : Type} (heap : Heap T) (s : Slice) (h : heap.valid s) :
    (heap.read s).length = s.len := by
  have := h.2
  simp only [Heap.read, List.length_take, List.length_drop]
  omega

/-- Allocating leaves every slice of the old memory as it was. -/
theorem read_append_of_lt {T : Type} (arrays : List (List T)) (arr : List T) (s : Slice)
    (h : s.array < arrays.length) :
    Heap.read { arrays := arrays ++ [arr] } s = Heap.read { arrays := arrays } s := by
  simp [Heap.read, List.getElem?_append_left h]

/-- Reading the whole of the newest array. -/
theorem read_newest {T : Type} (arrays : List (List T)) (arr : List T) :
    Heap.read { arrays := arrays ++ [arr] }
      { array := arrays.length, offset := 0, len := arr.length } = arr := by
  simp [Heap.read]

/-- Copying a slice of the heap into a freshly made slice. -/
theorem copy_make {T : Type} [Inhabited T] (heap : Heap T) (n : Nat) (src : Slice)
    (h : heap.valid src) :
    (heap.make n).2.copy (heap.make n).1 src
      = { arrays := heap.arrays
          ++ [(heap.read src).take n ++ List.replicate (n - src.len) default] } := by
  have hlen := read_length_of_valid heap src h
  have hread : Heap.read { arrays := heap.arrays ++ [List.replicate n (default : T)] } src
      = heap.read src := read_append_of_lt heap.arrays _ src h.1
  simp only [Heap.make, Heap.copy, hread]
  congr 1
  rw [List.getElem?_append_right (le_refl _)]
  simp only [Nat.sub_self, List.getElem?_cons_zero, Option.getD_some, writeAt, List.take_zero,
    List.nil_append, Nat.zero_add, List.length_take, hlen, List.take_take]
  rw [List.set_append_right _ _ (le_refl _)]
  simp only [Nat.sub_self, List.set_cons_zero, List.drop_replicate]
  have e1 : List.take (min n src.len) (heap.read src) = List.take n (heap.read src) := by
    rw [List.take_eq_take, hlen]
    omega
  have e2 : n - min (min n src.len) src.len = n - src.len := by omega
  rw [e1, e2]

/-- The memory after `NewImmutableList`, `GetItems` (with `n = len`) or the first two
statements of `Append` (with `n = len + 1`): one more array. -/
theorem GetItems_eq {T : Type} [Inhabited T] (l : ImmutableList) (heap : Heap T)
    (h : heap.valid l.items) :
    l.GetItems heap
      = ({ array := heap.arrays.length, offset := 0, len := l.items.len },
          { arrays := heap.arrays ++ [heap.read l.items] }) := by
  have hlen := read_length_of_valid heap l.items h
  simp only [ImmutableList.GetItems, copy_make heap l.items.len l.items h]
  have e : List.take l.items.len (heap.read l.items) = heap.read l.items := by
    rw [← hlen, List.take_length]
  simp [Heap.make, e]

theorem NewImmutableList_eq {T : Type} [Inhabited T] (heap : Heap T) (items : Slice)
    (h : heap.valid items) :
    NewImmutableList heap items
      = ({ items := { array := heap.arrays.length, offset := 0, len := items.len } },
          { arrays := heap.arrays ++ [heap.read items] }) := by
  have hlen := read_length_of_valid heap items h
  simp only [NewImmutableList, copy_make heap items.len items h]
  have e : List.take items.len (heap.read items) = heap.read items := by
    rw [← hlen, List.take_length]
  simp [Heap.make, e]

theorem Append_eq {T : Type} [Inhabited T] (l : ImmutableList) (heap : Heap T) (item : T)
    (h : heap.valid l.items) :
    l.Append heap item
      = ({ items := { array := heap.arrays.length, offset := 0, len := l.items.len + 1 } },
          { arrays := heap.arrays ++ [heap.read l.items ++ [item]] }) := by
  have hlen := read_length_of_valid heap l.items h
  simp only [ImmutableList.Append, copy_make heap (l.items.len + 1) l.items h]
  have e : List.take (l.items.len + 1) (heap.read l.items) = heap.read l.items := by
    rw [List.take_of_length_le (by omega)]
  have e2 : l.items.len + 1 - l.items.len = 1 := by omega
  simp only [Heap.make, Heap.store, e, e2, Nat.add_sub_cancel, Nat.zero_add]
  congr 2
  rw [List.getElem?_append_right (le_refl _)]
  simp only [Nat.sub_self, List.getElem?_cons_zero, Option.getD_some]
  rw [List.set_append_right _ _ (le_refl _)]
  simp only [Nat.sub_self, List.set_cons_zero]
  congr 2
  rw [List.set_append_right _ _ (by omega)]
  simp [hlen]

/-- Every slice of the memory is a slice of the memory with one more array. -/
theorem valid_append_of_valid {T : Type} (heap : Heap T) (arr : List T) (s : Slice)
    (h : heap.valid s) : Heap.valid { arrays := heap.arrays ++ [arr] } s := by
  refine ⟨?_, ?_⟩
  · have := h.1
    simp only [List.length_append, List.length_singleton]
    omega
  · have := h.2
    simpa [List.getElem?_append_left h.1] using this

/-- The slice of the whole newest array is a slice of the memory. -/
theorem valid_newest {T : Type} (arrays : List (List T)) (arr : List T) :
    Heap.valid { arrays := arrays ++ [arr] }
      { array := arrays.length, offset := 0, len := arr.length } := by
  refine ⟨by simp, ?_⟩
  simp

/-- What `GetItems` returns holds the elements of the list. -/
theorem readResult_GetItems {T : Type} [Inhabited T] (l : ImmutableList) (heap : Heap T)
    (h : heap.valid l.items) : readResult (l.GetItems heap) = heap.read l.items := by
  have hlen := read_length_of_valid heap l.items h
  rw [GetItems_eq l heap h, readResult]
  simp only
  rw [← hlen]
  exact read_newest heap.arrays (heap.read l.items)

/-- C16: `l.Append(x).GetItems()` is `l.GetItems()` followed by `x`; `l.GetItems()` after
the call is what it was before, and so is every slice that existed before the call;
`GetItems(NewImmutableList(xs))` is `xs`; and
`NewImmutableList([1,2,3,4,5]).Append(6).GetItems()` is `[1,2,3,4,5,6]`. -/
theorem ImmutableList_Append_immutable {T : Type} [Inhabited T] (heap : Heap T)
    (l : ImmutableList) (x : T) (xs : Slice)
    (hl : heap.valid l.items) (hxs : heap.valid xs) :
    readResult ((l.Append heap x).1.GetItems (l.Append heap x).2)
        = readResult (l.GetItems heap) ++ [x]
      ∧ readResult (l.GetItems (l.Append heap x).2) = readResult (l.GetItems heap)
      ∧ (∀ s : Slice, s.array < heap.arrays.length →
          (l.Append heap x).2.read s = heap.read s)
      ∧ readResult ((NewImmutableList heap xs).1.GetItems (NewImmutableList heap xs).2)
        = heap.read xs
      ∧ readResult
          ((((NewImmutableList exampleHeap exampleSlice).1.Append
              (NewImmutableList exampleHeap exampleSlice).2 6).1).GetItems
            ((NewImmutableList exampleHeap exampleSlice).1.Append
              (NewImmutableList exampleHeap exampleSlice).2 6).2)
        = [1, 2, 3, 4, 5, 6] := by
  have hlen := read_length_of_valid heap l.items hl
  have hlenx := read_length_of_valid heap xs hxs
  have hold : ∀ (arr : List T) (s : Slice), s.array < heap.arrays.length →
      Heap.read { arrays := heap.arrays ++ [arr] } s = heap.read s :=
    fun arr s hs => read_append_of_lt heap.arrays arr s hs
  refine ⟨?_, ?_, ?_, ?_, by decide⟩
  · rw [Append_eq l heap x hl, readResult_GetItems l heap hl]
    have hv : Heap.valid { arrays := heap.arrays ++ [heap.read l.items ++ [x]] }
        { array := heap.arrays.length, offset := 0, len := l.items.len + 1 } := by
      have := valid_newest heap.arrays (heap.read l.items ++ [x])
      simpa [hlen] using this
    rw [readResult_GetItems _ _ hv]
    have := read_newest heap.arrays (heap.read l.items ++ [x])
    simpa [hlen] using this
  · rw [Append_eq l heap x hl, readResult_GetItems l heap hl,
      readResult_GetItems l _ (valid_append_of_valid heap _ l.items hl)]
    exact hold _ l.items hl.1
  · intro s hs
    rw [Append_eq l heap x hl]
    exact hold _ s hs
  · rw [NewImmutableList_eq heap xs hxs]
    have hv : Heap.valid { arrays := heap.arrays ++ [heap.read xs] }
        { array := heap.arrays.length, offset := 0, len := xs.len } := by
      have := valid_newest heap.arrays (heap.read xs)
      simpa [hlenx] using this
    rw [readResult_GetItems _ _ hv]
    have := read_newest heap.arrays (heap.read xs)
    simpa [hlenx] using this

/-- C16 at the list of `cmd/main.go`: `[1,2,3,4,5]` in memory, and 6 appended. -/
theorem ImmutableList_Append_immutable_witness :
    exampleHeap.valid exampleSlice
      ∧ readResult (({ items := exampleSlice } : ImmutableList).GetItems
          (({ items := exampleSlice } : ImmutableList).Append exampleHeap 6).2)
        = readResult (({ items := exampleSlice } : ImmutableList).GetItems exampleHeap)
      ∧ readResult (({ items := exampleSlice } : ImmutableList).GetItems exampleHeap)
        = [1, 2, 3, 4, 5] :=
  have hvalid : exampleHeap.valid exampleSlice := ⟨by decide, by decide⟩
  ⟨hvalid,
    (ImmutableList_Append_immutable exampleHeap { items := exampleSlice } 6 exampleSlice
      hvalid hvalid).2.1,
    by decide⟩

/-! ## Lemmas on runs of the supervisor -/

/-- The number of entries is the number of specs mapped to. -/
theorem childCount_eq_length_childSpecs {P : Type} (m : ChildMap P) :
    childCount m = (childSpecs m).length := by
  simp [childCount, childSpecs, AList.keys, List.keys]

/-- Inserting a key that is not in the map adds its spec to the specs mapped to. -/
theorem childSpecs_insert_of_not_mem {P : Type} (m : ChildMap P) (k : PID)
    (spec : ChildSpec P) (hk : k ∉ m) :
    childSpecs (m.insert k spec) = spec :: childSpecs m := by
  rw [childSpecs, AList.insert_entries_of_neg hk]
  rfl

/-- Erasing a key removes one occurrence of its spec from the specs mapped to. -/
theorem childSpecs_erase_perm {P : Type} (m : ChildMap P) (h : PID) (spec : ChildSpec P)
    (hkey : m.lookup h = some spec) :
    (spec :: childSpecs (m.erase h)).Perm (childSpecs m) := by
  have hmem : h ∈ m.entries.keys := AList.mem_keys.mp (mem_of_lookup_eq_some hkey)
  obtain ⟨b, l1, l2, hnot, hsplit, hker⟩ := List.exists_of_kerase hmem
  have hlook : List.dlookup h m.entries = some spec := hkey
  have hb : b = spec := by
    rw [hsplit, List.dlookup_append, List.dlookup_eq_none.mpr hnot] at hlook
    simpa using hlook
  subst hb
  have he : (m.erase h).entries = l1 ++ l2 := hker
  simp only [childSpecs, he, hsplit, List.map_append, List.map_cons]
  exact List.perm_middle.symm

/-- The termination of a registered child, replaced under a handle that is not a key,
leaves the specs mapped to the same up to order. -/
theorem childSpecs_replace_perm {P : Type} (m : ChildMap P) (h k : PID) (spec : ChildSpec P)
    (hkey : m.lookup h = some spec) (hk : k ∉ m) :
    (childSpecs ((m.erase h).insert k spec)).Perm (childSpecs m) := by
  have hk2 : k ∉ m.erase h := by
    simp [AList.mem_erase, hk]
  rw [childSpecs_insert_of_not_mem _ k spec hk2]
  exact childSpecs_erase_perm m h spec hkey

/-- The loop of the `Started` case adds the specs it visits to the specs mapped to. -/
theorem spawnChildren_childSpecs {P : Type} (specs : List (ChildSpec P)) :
    ∀ (m : ChildMap P) (ctx : Context P),
      (∀ i j, i < specs.length → j < specs.length →
        ctx.handles (ctx.spawned + i) = ctx.handles (ctx.spawned + j) → i = j) →
      (∀ i, i < specs.length → ctx.handles (ctx.spawned + i) ∉ m) →
      (childSpecs (spawnChildren specs m ctx).1).Perm (specs ++ childSpecs m) := by
  induction specs with
  | nil =>
      intro m ctx _ _
      simp [spawnChildren]
  | cons spec rest ih =>
      intro m ctx hdist hnew
      have h0 : ctx.handles ctx.spawned ∉ m := by simpa using hnew 0 (by simp)
      have hdist1 : ∀ i j, i < rest.length → j < rest.length →
          ctx.handles (ctx.spawned + 1 + i) = ctx.handles (ctx.spawned + 1 + j) → i = j := by
        intro i j hi hj heq
        have e1 : ctx.spawned + 1 + i = ctx.spawned + (i + 1) := by omega
        have e2 : ctx.spawned + 1 + j = ctx.spawned + (j + 1) := by omega
        rw [e1, e2] at heq
        have := hdist (i + 1) (j + 1) (by simpa using hi) (by simpa using hj) heq
        omega
      have hnew1 : ∀ i, i < rest.length →
          ctx.handles (ctx.spawned + 1 + i) ∉ m.insert (ctx.handles ctx.spawned) spec := by
        intro i hi hmem
        have e1 : ctx.spawned + 1 + i = ctx.spawned + (i + 1) := by omega
        rw [e1] at hmem
        rcases (AList.mem_insert m).mp hmem with heq | hin
        · have := hdist (i + 1) 0 (by simpa using hi) (by simp) (by simpa using heq)
          omega
        · exact hnew (i + 1) (by simpa using hi) hin
      have hrec := ih (m.insert (ctx.handles ctx.spawned) spec)
        { handles := ctx.handles
          spawned := ctx.spawned + 1
          trace := ctx.trace ++ [Effect.Spawn spec.Props (ctx.handles ctx.spawned)]
            ++ [Effect.Watch (ctx.handles ctx.spawned)]
            ++ [Effect.Printf "Spawned child '%s': %v\n" spec.Name
                  (ctx.handles ctx.spawned)] }
        hdist1 hnew1
      simp only [spawnChildren, Context.Spawn, Context.Watch, Context.Printf]
      rw [childSpecs_insert_of_not_mem m _ spec h0] at hrec
      exact hrec.trans List.perm_middle

/-- One message other than `Started`, handled when the substrate returns a handle that is
not a key: the specs mapped to are the same up to order, and `specs` is unchanged. -/
theorem Receive_childSpecs_perm {P X : Type} (s : SupervisorActor P) (ctx : Context P)
    (msg : Message X) (hmsg : msg ≠ Message.Started)
    (hfresh : ∀ h, msg = Message.Terminated h → h ∈ s.children →
      ctx.handles ctx.spawned ∉ s.children) :
    (childSpecs (s.Receive ctx msg).1.children).Perm (childSpecs s.children)
      ∧ (s.Receive ctx msg).1.specs = s.specs := by
  cases msg with
  | Started => exact absurd rfl hmsg
  | other value => exact ⟨List.Perm.refl _, rfl⟩
  | Terminated h =>
      cases hlook : s.children.lookup h with
      | none =>
          rw [Receive_Terminated_of_not_mem s ctx h (AList.lookup_eq_none.mp hlook)]
          exact ⟨List.Perm.refl _, rfl⟩
      | some spec =>
          rw [Receive_Terminated_of_lookup s ctx h spec hlook]
          exact ⟨childSpecs_replace_perm s.children h _ spec hlook
            (hfresh h rfl (mem_of_lookup_eq_some hlook)), rfl⟩

/-- A run of messages other than `Started`, the substrate returning handles that are not
current keys: the specs mapped to are the same up to order, and `specs` is unchanged. -/
theorem ReceiveAll_childSpecs_perm {P X : Type} (msgs : List (Message X)) :
    ∀ (s : SupervisorActor P) (ctx : Context P),
      (∀ msg, msg ∈ msgs → msg ≠ Message.Started) → freshAlong s ctx msgs →
      (childSpecs (s.ReceiveAll ctx msgs).1.children).Perm (childSpecs s.children)
        ∧ (s.ReceiveAll ctx msgs).1.specs = s.specs := by
  induction msgs with
  | nil =>
      intro s ctx _ _
      exact ⟨List.Perm.refl _, rfl⟩
  | cons msg rest ih =>
      intro s ctx hno hfresh
      obtain ⟨hp1, hs1⟩ := Receive_childSpecs_perm s ctx msg
        (hno msg (List.mem_cons_self _ _)) hfresh.1
      obtain ⟨hp2, hs2⟩ := ih (s.Receive ctx msg).1 (s.Receive ctx msg).2
        (fun m hm => hno m (List.mem_cons_of_mem _ hm)) hfresh.2
      exact ⟨hp2.trans hp1, hs2.trans hs1⟩

/-- Freshness along a run holds along each of its prefixes. -/
theorem freshAlong_take {P X : Type} (msgs : List (Message X)) :
    ∀ (k : Nat) (s : SupervisorActor P) (ctx : Context P),
      freshAlong s ctx msgs → freshAlong s ctx (msgs.take k) := by
  induction msgs with
  | nil =>
      intro k s ctx _
      simp [freshAlong]
  | cons msg rest ih =>
      intro k s ctx hfresh
      cases k with
      | zero => simp [freshAlong]
      | succ k => exact ⟨hfresh.1, ih k _ _ hfresh.2⟩

/-- C18: from `NewSupervisorActor(specs)` after one `Started` (pairwise distinct handles),
for every finite sequence of further messages other than `Started`, the substrate
returning handles that are not current keys: the children map has exactly `len(specs)`
entries, after the sequence and after each of its prefixes, the specs it maps to are
`specs` up to order, `specs` is unchanged, and the termination of any child registered
then is answered by a spawn from that child's props. -/
theorem supervisor_keeps_every_child {P X : Type} (specs : List (ChildSpec P))
    (s1 s2 : SupervisorActor P) (ctx ctx1 ctx2 : Context P) (msgs : List (Message X))
    (hstart : (NewSupervisorActor specs).Receive ctx (Message.Started : Message X) = (s1, ctx1))
    (hrun : s1.ReceiveAll ctx1 msgs = (s2, ctx2))
    (hdistinct : ∀ i j, i < specs.length → j < specs.length →
      ctx.handles (ctx.spawned + i) = ctx.handles (ctx.spawned + j) → i = j)
    (hnoStart : ∀ msg, msg ∈ msgs → msg ≠ Message.Started)
    (hfresh : freshAlong s1 ctx1 msgs) :
    childCount s2.children = specs.length
      ∧ (childSpecs s2.children).Perm specs
      ∧ s2.specs = specs
      ∧ (∀ k, childCount (s1.ReceiveAll ctx1 (msgs.take k)).1.children = specs.length)
      ∧ (∀ h spec, s2.children.lookup h = some spec →
          spawnRequests (s2.Receive ctx2 (Message.Terminated h : Message X)).2.trace
            = spawnRequests ctx2.trace ++ [spec.Props]) := by
  rw [Receive_Started] at hstart
  obtain ⟨hs1, _⟩ := Prod.mk.inj hstart
  have hstarted : (childSpecs s1.children).Perm specs ∧ s1.specs = specs := by
    rw [← hs1]
    have hp := spawnChildren_childSpecs specs (∅ : ChildMap P)
      (ctx.Println "Supervisor started, spawning children...") hdistinct
      (fun i _ => AList.not_mem_empty _)
    refine ⟨?_, rfl⟩
    simpa [NewSupervisorActor, childSpecs] using hp
  have hprefix : ∀ part : List (Message X),
      (∀ msg, msg ∈ part → msg ≠ Message.Started) →
      freshAlong s1 ctx1 part →
      (childSpecs (s1.ReceiveAll ctx1 part).1.children).Perm specs
        ∧ (s1.ReceiveAll ctx1 part).1.specs = specs := by
    intro part hno hfr
    obtain ⟨hp, hsp⟩ := ReceiveAll_childSpecs_perm part s1 ctx1 hno hfr
    exact ⟨hp.trans hstarted.1, hsp.trans hstarted.2⟩
  obtain ⟨hp2, hsp2⟩ := hprefix msgs hnoStart hfresh
  rw [hrun] at hp2 hsp2
  refine ⟨?_, hp2, hsp2, ?_, ?_⟩
  · rw [childCount_eq_length_childSpecs, hp2.length_eq]
  · intro k
    obtain ⟨hpk, _⟩ := hprefix (msgs.take k)
      (fun msg hm => hnoStart msg (List.mem_of_mem_take hm))
      (freshAlong_take msgs k s1 ctx1 hfresh)
    rw [childCount_eq_length_childSpecs, hpk.length_eq]
  · intro h spec hkey
    rw [Receive_Terminated_of_lookup s2 ctx2 h spec hkey]
    simp [spawnRequests_append, spawnRequests]

/-- C18 at the supervisor of `cmd/main.go`: after both children terminated, with an
integer and a stale notification in between, it still holds two children. -/
theorem supervisor_keeps_every_child_witness :
    (∀ msg, msg ∈ mainRunMessages → msg ≠ Message.Started)
      ∧ freshAlong mainStarted.1 mainStarted.2 mainRunMessages
      ∧ childCount mainRun.1.children = 2
      ∧ (childSpecs mainRun.1.children).Perm [mainChildSpec, mainChildSpec]
      ∧ mainRun.1.specs = [mainChildSpec, mainChildSpec]
      ∧ (∀ k, childCount
          (mainStarted.1.ReceiveAll mainStarted.2 (mainRunMessages.take k)).1.children = 2)
      ∧ (∀ h spec, mainRun.1.children.lookup h = some spec →
          spawnRequests (mainRun.1.Receive mainRun.2 (Message.Terminated h : Message Int)).2.trace
            = spawnRequests mainRun.2.trace ++ [spec.Props]) :=
  have hno : ∀ msg, msg ∈ mainRunMessages → msg ≠ Message.Started := by decide
  have hfresh : freshAlong mainStarted.1 mainStarted.2 mainRunMessages :=
    ⟨fun _ _ _ => by decide, fun _ _ _ => by decide, fun _ _ _ => by decide,
      fun _ _ _ => by decide, trivial⟩
  ⟨hno, hfresh,
    supervisor_keeps_every_child [mainChildSpec, mainChildSpec] mainStarted.1 mainRun.1
      (countingContext _) mainStarted.2 mainRun.2 mainRunMessages rfl rfl
      (fun i j _ _ hij => by simpa [countingContext] using hij) hno hfresh⟩

end Functional
